import Mathlib

/-!
# Pen tool (`src/components/tools/pen.js`): stroke capture

A shallow embedding of the `pen` component.  JavaScript numbers are idealised
as rationals (no rounding, no `NaN`, no infinities).  The collaborators that
live outside the component (THREE.js vector normalisation, the camera, the
Drawing Manager, the drawing sink, the raycaster, the input system) are not
part of the component: what they answer is an explicit argument of each
operation, and every call the pen makes to the Drawing Manager or to a sink is
appended to the `calls` field of the pen state.  Sound effects and the writes
to the rendered pen tip and laser have no influence on the pen state and are
left out.
-/

namespace Pen

/-- A `THREE.Vector3` with rational components. -/
structure Vec3 where
  x : ℚ
  y : ℚ
  z : ℚ
deriving DecidableEq

/-- The result of `Vector3.subVectors(a, b)`. -/
def Vec3.subVectors (a b : Vec3) : Vec3 :=
  ⟨a.x - b.x, a.y - b.y, a.z - b.z⟩

/-- The result of `Vector3.crossVectors(a, b)`. -/
def Vec3.crossVectors (a b : Vec3) : Vec3 :=
  ⟨a.y * b.z - a.z * b.y, a.z * b.x - a.x * b.z, a.x * b.y - a.y * b.x⟩

/-- The square of `Vector3.distanceTo`. -/
def Vec3.distanceToSquared (a b : Vec3) : ℚ :=
  (a.x - b.x) * (a.x - b.x) + (a.y - b.y) * (a.y - b.y) + (a.z - b.z) * (a.z - b.z)

/-- The test `a.distanceTo(b) >= m`, decided without a square root:
`sqrt d >= m` holds exactly when `m <= 0` or `d >= m * m` (for `d >= 0`). -/
def Vec3.distanceToGe (a b : Vec3) (m : ℚ) : Bool :=
  decide (m ≤ 0) || decide (m * m ≤ a.distanceToSquared b)

/-- Line 56: `almostEquals(epsilon, u, v)`. -/
def almostEquals (epsilon : ℚ) (u v : Vec3) : Bool :=
  decide (|u.x - v.x| < epsilon) && decide (|u.y - v.y| < epsilon) &&
    decide (|u.z - v.z| < epsilon)

/-- Truncation toward zero, as in the JavaScript `%` on numbers. -/
def jsTrunc (q : ℚ) : ℤ :=
  if 0 ≤ q then ⌊q⌋ else ⌈q⌉

/-- The JavaScript remainder `a % b` on numbers: `a - b * trunc (a / b)`, with
the sign of the dividend.  For `b = 0` JavaScript gives `NaN`, which the
rationals do not have; the statements that depend on `%` assume `b ≠ 0`. -/
def jsMod (a b : ℚ) : ℚ :=
  a - b * (jsTrunc (a / b) : ℚ)

/-- Line 42: `DRAW_MODE`. -/
inductive DrawMode where
  | DEFAULT_3D
  | PROJECTION
deriving DecidableEq

/-- Line 47: `MAX_DISTANCE_BETWEEN_SURFACES`. -/
def MAX_DISTANCE_BETWEEN_SURFACES : ℚ := 1

/-- The keys of `pathsMap` (line 12), the values `grabberId` takes besides
`null`. -/
inductive Grabber where
  | playerRightController
  | playerLeftController
  | cursor
deriving DecidableEq

/-- A raycast hit: `point`, `distance` and the identity of the hit `object`. -/
structure Intersection where
  point : Vec3
  distance : ℚ
  object : Nat
deriving DecidableEq

/-- The value of `this.lastIntersectedObject`: never assigned by `init`
(`undefined`), then `null` or an object identity. -/
inductive ObjRef where
  | undefined
  | null
  | obj (id : Nat)
deriving DecidableEq

/-- The expression `intersection ? intersection.object : null`. -/
def objectOf (intersection : Option Intersection) : ObjRef :=
  match intersection with
  | some i => ObjRef.obj i.object
  | none => ObjRef.null

/-- The expression `intersection ? intersection.distance : 0`. -/
def distanceOf (intersection : Option Intersection) : ℚ :=
  match intersection with
  | some i => i.distance
  | none => 0

/-- A call made by the pen to the Drawing Manager (`getDrawing`, recorded with
what it returned, and `returnDrawing`) or to a drawing sink. -/
inductive Call where
  | getDrawing (result : Option Nat)
  | returnDrawing
  | startDraw (sink : Nat) (position direction normal : Vec3)
      (color : Option String) (radius : ℚ)
  | draw (sink : Nat) (position direction normal : Vec3)
      (color : Option String) (radius : ℚ)
  | endDraw (sink : Nat) (position direction normal : Vec3)
  | undoDraw (sink : Nat)
deriving DecidableEq

/-- The fields of `this.data` (the schema, line 61) the pen logic reads or
writes.  `color` is `none` when `availableColors[colorIndex]` is `undefined`. -/
structure Data where
  drawFrequency : ℚ
  minDistanceBetweenPoints : ℚ
  color : Option String
  availableColors : List String
  radius : ℚ
  minRadius : ℚ
  maxRadius : ℚ
  drawMode : DrawMode
  penVisible : Bool
deriving DecidableEq

/-- The component instance: the fields set by `init` (line 96) and later
methods, with the log of calls made to the Drawing Manager and to sinks. -/
structure State where
  data : Data
  timeSinceLastDraw : ℚ
  lastPosition : Vec3
  direction : Vec3
  currentDrawing : Option Nat
  normal : Vec3
  worldPosition : Vec3
  colorIndex : ℤ
  grabberId : Option Grabber
  lastIntersectionDistance : ℚ
  lastIntersectedObject : ObjRef
  targets : List Nat
  dirty : Bool
  calls : List Call
deriving DecidableEq

/-- What the surroundings answer while one method runs: the camera position
read by `_getNormal` and `Vector3.normalize`. -/
structure Ctx where
  cameraPosition : Vec3
  normalize : Vec3 → Vec3

/-- The schema defaults (lines 62-93). -/
def defaultData : Data where
  drawFrequency := 5
  minDistanceBetweenPoints := 1 / 100
  color := some "#FF0033"
  availableColors :=
    ["#FF0033", "#FFFF00", "#0099FF", "#00FF33", "#9900FF", "#FF6600", "#8D5524",
      "#C68642", "#E0AC69", "#F1C27D", "#FFDBAC", "#FFFFFF", "#222222", "#111111",
      "#000000"]
  radius := 1 / 100
  minRadius := 5 / 1000
  maxRadius := 2 / 10
  drawMode := DrawMode.DEFAULT_3D
  penVisible := true

/-- Lines 96-122: `init`, for schema data `data` and the entity position
`position`.  `lastIntersectedObject` is not assigned and stays `undefined`.
`grabberId` is not assigned either; it is only read after `_handleInput` has
assigned it, so `none` stands for it here. -/
def init (data : Data) (position : Vec3) : State where
  data := data
  timeSinceLastDraw := 0
  lastPosition := position
  direction := ⟨1, 0, 0⟩
  currentDrawing := none
  normal := ⟨0, 0, 0⟩
  worldPosition := ⟨0, 0, 0⟩
  colorIndex := 0
  grabberId := none
  lastIntersectionDistance := 0
  lastIntersectedObject := ObjRef.undefined
  targets := []
  dirty := true
  calls := []

/-- The expression `availableColors[colorIndex]`: `none` (for `undefined`)
outside the array. -/
def colorAt (availableColors : List String) (i : ℤ) : Option String :=
  if 0 ≤ i then availableColors.get? i.toNat else none

/-- Lines 393-399: `_getNormal`, returning the vector written to `normal`. -/
def _getNormal (c : Ctx) (position direction : Vec3) : Vec3 :=
  direction.crossVectors (c.normalize (position.subVectors c.cameraPosition))

/-- Lines 401-407: `_startDraw`; `got` is what `drawingManager.getDrawing(this)`
returns on this call. -/
def _startDraw (c : Ctx) (got : Option Nat) (s : State) : State :=
  let s1 : State := { s with currentDrawing := got, calls := s.calls ++ [Call.getDrawing got] }
  match got with
  | some k =>
    let n := _getNormal c s1.worldPosition s1.direction
    { s1 with
      normal := n
      calls := s1.calls ++
        [Call.startDraw k s1.worldPosition s1.direction n s1.data.color s1.data.radius] }
  | none => s1

/-- Lines 409-417: `_endDraw`. -/
def _endDraw (c : Ctx) (s : State) : State :=
  match s.currentDrawing with
  | some k =>
    let n := _getNormal c s.worldPosition s.direction
    { s with
      timeSinceLastDraw := 0
      normal := n
      calls := s.calls ++ [Call.endDraw k s.worldPosition s.direction n, Call.returnDrawing]
      currentDrawing := none }
  | none => s

/-- Lines 419-425: `_undoDraw`; `got` is what `drawingManager.getDrawing(this)`
returns on this call. -/
def _undoDraw (got : Option Nat) (s : State) : State :=
  match got with
  | some k =>
    { s with calls := s.calls ++ [Call.getDrawing got, Call.undoDraw k, Call.returnDrawing] }
  | none => { s with calls := s.calls ++ [Call.getDrawing none] }

/-- Lines 427-432: `_changeColor`.  `%` is the truncated remainder. -/
def _changeColor (mod : ℤ) (s : State) : State :=
  let n : ℤ := s.data.availableColors.length
  let i : ℤ := Int.tmod (s.colorIndex + mod + n) n
  { s with
    colorIndex := i
    data := { s.data with color := colorAt s.data.availableColors i } }

/-- Lines 434-438: `_changeRadius`. -/
def _changeRadius (mod : ℚ) (s : State) : State :=
  { s with
    data := { s.data with
      radius := max s.data.minRadius (min (s.data.radius + mod) s.data.maxRadius) } }

/-- Lines 440-442: `setDirty`. -/
def setDirty (s : State) : State :=
  { s with dirty := true }

/-- The action values `userinput.get` returns for one holder's paths. -/
structure Actions where
  startDrawing : Bool
  stopDrawing : Bool
  scalePenTip : ℚ
  penNextColor : Bool
  penPrevColor : Bool
  undoDrawing : Bool
  switchDrawMode : Bool

/-- A ray: origin and direction. -/
structure Ray where
  origin : Vec3
  direction : Vec3

/-- Everything the surroundings answer during one `tick`. -/
structure Frame where
  /-- The ownership test at line 171. -/
  isMine : Bool
  /-- The camera position and `Vector3.normalize`. -/
  ctx : Ctx
  /-- Whether `interaction.state.rightHand.held` is the pen. -/
  rightHandHeld : Bool
  /-- Whether `interaction.state.leftHand.held` is the pen. -/
  leftHandHeld : Bool
  /-- Whether `interaction.state.rightRemote.held` is the pen. -/
  rightRemoteHeld : Bool
  /-- The action values read through each holder's paths. -/
  userinput : Grabber → Actions
  /-- What `getDrawing` returns when `_startDraw` calls it. -/
  getDrawingOnStart : Option Nat
  /-- What `getDrawing` returns when `_undoDraw` calls it. -/
  getDrawingOnUndo : Option Nat
  /-- The value of `userinput.get(pathsMap.cursor.pose)`. -/
  cursorPose : Option Ray
  /-- The ray from the pen's parent: its world position, and `(0, -1, 0)`
  rotated by its world quaternion. -/
  parentRay : Ray
  /-- The hits `raycaster.intersectObjects(targets, true, ...)` finds along a ray. -/
  intersectObjects : List Nat → Ray → List Intersection
  /-- The world position `getLastWorldPosition(this.el.object3D, ...)` yields
  once the tip is back at `originalPosition`. -/
  tipWorldPosition : Vec3
  /-- What `getLastPoint()` of a sink returns. -/
  getLastPoint : Nat → Vec3
  /-- The objects `populateEntities` finds in the scene. -/
  entities : List Nat
  /-- The time step `dt`. -/
  dt : ℚ

/-- Lines 212-258: `_handleInput`. -/
def _handleInput (f : Frame) (s : State) : State :=
  let s1 : State :=
    if f.rightHandHeld then { s with grabberId := some Grabber.playerRightController }
    else if f.leftHandHeld then { s with grabberId := some Grabber.playerLeftController }
    else if f.rightRemoteHeld then
      { s with
        grabberId := some Grabber.cursor
        data := { s.data with drawMode := DrawMode.PROJECTION } }
    else { s with grabberId := none }
  match s1.grabberId with
  | none => s1
  | some g =>
    let a := f.userinput g
    let s2 := if a.startDrawing then _startDraw f.ctx f.getDrawingOnStart s1 else s1
    let s3 := if a.stopDrawing then _endDraw f.ctx s2 else s2
    let s4 := if a.scalePenTip ≠ 0 then _changeRadius a.scalePenTip s3 else s3
    let s5 := if a.penNextColor then _changeColor 1 s4 else s4
    let s6 := if a.penPrevColor then _changeColor (-1) s5 else s5
    let s7 := if a.undoDrawing then _undoDraw f.getDrawingOnUndo s6 else s6
    if g ≠ Grabber.cursor ∧ a.switchDrawMode = true then
      { s7 with
        data := { s7.data with
          drawMode :=
            if s7.data.drawMode = DrawMode.DEFAULT_3D then DrawMode.PROJECTION
            else DrawMode.DEFAULT_3D } }
    else s7

/-- Lines 260-287: `_getIntersection`.  The scratch `raycaster.ray` is written
before every use, so only the returned hit is kept. -/
def _getIntersection (f : Frame) (cursorPose : Option Ray) (s : State) : Option Intersection :=
  if s.data.drawMode = DrawMode.PROJECTION then
    match s.grabberId with
    | some _ =>
      let ray := match cursorPose with
        | some p => p
        | none => f.parentRay
      (f.intersectObjects s.targets ray).head?
    | none => none
  else none

/-- Lines 289-308: `_updatePenTip`, as far as `worldPosition` goes. -/
def _updatePenTip (f : Frame) (intersection : Option Intersection) (s : State) : State :=
  match s.data.drawMode, intersection with
  | DrawMode.PROJECTION, some i => { s with worldPosition := i.point }
  | _, _ => { s with worldPosition := f.tipWorldPosition }

/-- Lines 346-351: the condition under which `_doDraw` breaks the stroke. -/
def jumpBreak (intersection : Option Intersection) (s : State) : Bool :=
  s.currentDrawing.isSome &&
    (decide (s.lastIntersectedObject ≠ objectOf intersection) &&
      match intersection with
      | none => true
      | some i => decide (|i.distance - s.lastIntersectionDistance| > MAX_DISTANCE_BETWEEN_SURFACES))

/-- Lines 365-368: the condition under which `_doDraw` emits a point, for the
sink `k` held. -/
def sampleDue (f : Frame) (k : Nat) (s : State) : Bool :=
  decide (s.timeSinceLastDraw + f.dt ≥ s.data.drawFrequency) &&
    (f.getLastPoint k).distanceToGe s.worldPosition s.data.minDistanceBetweenPoints

/-- Lines 344-384: `_doDraw(intersection, dt)`. -/
def _doDraw (f : Frame) (intersection : Option Intersection) (s : State) : State :=
  let s1 : State :=
    if jumpBreak intersection s then _endDraw f.ctx { s with worldPosition := s.lastPosition }
    else s
  let s2 : State :=
    { s1 with
      lastIntersectionDistance := distanceOf intersection
      lastIntersectedObject := objectOf intersection }
  let s3 : State :=
    if almostEquals (5 / 1000) s2.worldPosition s2.lastPosition then s2
    else
      { s2 with
        direction := f.ctx.normalize (s2.worldPosition.subVectors s2.lastPosition)
        lastPosition := s2.worldPosition }
  let s4 : State :=
    match s3.currentDrawing with
    | some k =>
      let s31 : State :=
        if sampleDue f k s3 then
          let n := _getNormal f.ctx s3.worldPosition s3.direction
          { s3 with
            normal := n
            calls := s3.calls ++
              [Call.draw k s3.worldPosition s3.direction n s3.data.color s3.data.radius] }
        else s3
      { s31 with timeSinceLastDraw := jsMod (s3.timeSinceLastDraw + f.dt) s3.data.drawFrequency }
    | none => s3
  let s5 : State :=
    if s4.currentDrawing.isSome ∧ s4.grabberId.isNone then _endDraw f.ctx s4 else s4
  if s5.dirty then { s5 with targets := f.entities, dirty := false } else s5

/-- Lines 169-210: `tick(t, dt)`.  The writes to the pen tip material, to the
`pen-laser` component and to the mesh visibility derive from the state and
are not read back; of them only `penVisible` is stored. -/
def tick (f : Frame) (s : State) : State :=
  if f.isMine then
    let s1 := _handleInput f s
    let cursorPose : Option Ray :=
      if s1.data.drawMode = DrawMode.PROJECTION ∧ s1.grabberId = some Grabber.cursor then
        f.cursorPose
      else none
    let intersection := _getIntersection f cursorPose s1
    let s2 := _updatePenTip f intersection s1
    let penVisible : Bool := decide (s2.grabberId ≠ some Grabber.cursor) || intersection.isNone
    let s3 : State := { s2 with data := { s2.data with penVisible := penVisible } }
    _doDraw f intersection s3
  else s

/-! ## The parts of `tick`, `_handleInput` and `_doDraw`

The methods above are cut along their statements, so that each part can be
reasoned about on its own; `tick_eq`, `handleInput_eq`, `intents_eq` and
`doDraw_eq` below show that the parts compose to the methods. -/

/-- Lines 179-186 of `tick`: the hit handed to `_updatePenTip` and `_doDraw`. -/
def tickIntersection (f : Frame) (s : State) : Option Intersection :=
  let s1 := _handleInput f s
  let cursorPose : Option Ray :=
    if s1.data.drawMode = DrawMode.PROJECTION ∧ s1.grabberId = some Grabber.cursor then
      f.cursorPose
    else none
  _getIntersection f cursorPose s1

/-- Lines 179-203 of `tick`: the state in which `_doDraw` is entered. -/
def tickBeforeDraw (f : Frame) (s : State) : State :=
  let s2 := _updatePenTip f (tickIntersection f s) (_handleInput f s)
  let penVisible : Bool :=
    decide (s2.grabberId ≠ some Grabber.cursor) || (tickIntersection f s).isNone
  { s2 with data := { s2.data with penVisible := penVisible } }

/-- The holder `_handleInput` resolves (lines 216-225). -/
def holderOf (f : Frame) : Option Grabber :=
  if f.rightHandHeld then some Grabber.playerRightController
  else if f.leftHandHeld then some Grabber.playerLeftController
  else if f.rightRemoteHeld then some Grabber.cursor
  else none

/-- Lines 216-225 of `_handleInput`: the holder `g` is recorded, and the
cursor forces the projection mode. -/
def withHolder (g : Grabber) (s : State) : State :=
  match g with
  | Grabber.cursor =>
    { s with
      grabberId := some Grabber.cursor
      data := { s.data with drawMode := DrawMode.PROJECTION } }
  | _ => { s with grabberId := some g }

/-- Lines 228-256 of `_handleInput`: the intents of holder `g`, in order. -/
def intents (f : Frame) (g : Grabber) (s1 : State) : State :=
  let a := f.userinput g
  let s2 := if a.startDrawing then _startDraw f.ctx f.getDrawingOnStart s1 else s1
  let s3 := if a.stopDrawing then _endDraw f.ctx s2 else s2
  let s4 := if a.scalePenTip ≠ 0 then _changeRadius a.scalePenTip s3 else s3
  let s5 := if a.penNextColor then _changeColor 1 s4 else s4
  let s6 := if a.penPrevColor then _changeColor (-1) s5 else s5
  let s7 := if a.undoDrawing then _undoDraw f.getDrawingOnUndo s6 else s6
  if g ≠ Grabber.cursor ∧ a.switchDrawMode = true then
    { s7 with
      data := { s7.data with
        drawMode :=
          if s7.data.drawMode = DrawMode.DEFAULT_3D then DrawMode.PROJECTION
          else DrawMode.DEFAULT_3D } }
  else s7

/-- Lines 230-237 of `_handleInput`: the start-draw and stop-draw intents. -/
def intentsHead (f : Frame) (g : Grabber) (s1 : State) : State :=
  if (f.userinput g).stopDrawing then
    _endDraw f.ctx
      (if (f.userinput g).startDrawing then _startDraw f.ctx f.getDrawingOnStart s1 else s1)
  else if (f.userinput g).startDrawing then _startDraw f.ctx f.getDrawingOnStart s1 else s1

/-- Lines 238-256 of `_handleInput`: the radius, colour, undo and mode
intents. -/
def intentsTail (f : Frame) (g : Grabber) (s3 : State) : State :=
  let a := f.userinput g
  let s4 := if a.scalePenTip ≠ 0 then _changeRadius a.scalePenTip s3 else s3
  let s5 := if a.penNextColor then _changeColor 1 s4 else s4
  let s6 := if a.penPrevColor then _changeColor (-1) s5 else s5
  let s7 := if a.undoDrawing then _undoDraw f.getDrawingOnUndo s6 else s6
  if g ≠ Grabber.cursor ∧ a.switchDrawMode = true then
    { s7 with
      data := { s7.data with
        drawMode :=
          if s7.data.drawMode = DrawMode.DEFAULT_3D then DrawMode.PROJECTION
          else DrawMode.DEFAULT_3D } }
  else s7

/-- Lines 355-356 of `_doDraw`: this tick's hit is recorded. -/
def recordHit (i : Option Intersection) (s : State) : State :=
  { s with
    lastIntersectionDistance := distanceOf i
    lastIntersectedObject := objectOf i }

/-- Lines 346-356 of `_doDraw`: the jump break, then the record of this
tick's hit. -/
def breakStage (f : Frame) (i : Option Intersection) (s : State) : State :=
  let s1 : State :=
    if jumpBreak i s then _endDraw f.ctx { s with worldPosition := s.lastPosition }
    else s
  { s1 with
    lastIntersectionDistance := distanceOf i
    lastIntersectedObject := objectOf i }

/-- Lines 358-361 of `_doDraw`: the direction update. -/
def directionStage (f : Frame) (s : State) : State :=
  if almostEquals (5 / 1000) s.worldPosition s.lastPosition then s
  else
    { s with
      direction := f.ctx.normalize (s.worldPosition.subVectors s.lastPosition)
      lastPosition := s.worldPosition }

/-- Lines 363-374 of `_doDraw`: the sampling step. -/
def sampleStage (f : Frame) (s : State) : State :=
  match s.currentDrawing with
  | some k =>
    let s31 : State :=
      if sampleDue f k s then
        let n := _getNormal f.ctx s.worldPosition s.direction
        { s with
          normal := n
          calls := s.calls ++
            [Call.draw k s.worldPosition s.direction n s.data.color s.data.radius] }
      else s
    { s31 with timeSinceLastDraw := jsMod (s.timeSinceLastDraw + f.dt) s.data.drawFrequency }
  | none => s

/-- Lines 376-378 of `_doDraw`: a stroke without a holder is ended. -/
def releaseStage (f : Frame) (s : State) : State :=
  if s.currentDrawing.isSome ∧ s.grabberId.isNone then _endDraw f.ctx s else s

/-- Lines 380-383 of `_doDraw`: the target list is rebuilt when dirty. -/
def targetsStage (f : Frame) (s : State) : State :=
  if s.dirty then { s with targets := f.entities, dirty := false } else s

/-- The calls the sampling step (lines 363-374) makes in state `t`: one `draw`
when a stroke is active and the sampling test passes, none otherwise. -/
def sampled (f : Frame) (t : State) : List Call :=
  match t.currentDrawing with
  | some k =>
    if sampleDue f k t then
      [Call.draw k t.worldPosition t.direction (_getNormal f.ctx t.worldPosition t.direction)
        t.data.color t.data.radius]
    else []
  | none => []

/-! ## Runs and call logs -/

/-- One thing that happens to the pen: a whole `tick`, or one of the intent
methods called on its own. -/
inductive Step where
  | tick (f : Frame)
  | startDraw (c : Ctx) (got : Option Nat)
  | endDraw (c : Ctx)
  | undoDraw (got : Option Nat)

/-- The effect of one step. -/
def step (s : State) (st : Step) : State :=
  match st with
  | Step.tick f => tick f s
  | Step.startDraw c got => _startDraw c got s
  | Step.endDraw c => _endDraw c s
  | Step.undoDraw got => _undoDraw got s

/-- The state after a sequence of steps. -/
def run (s : State) (steps : List Step) : State :=
  steps.foldl step s

/-- The state after a sequence of ticks. -/
def runTicks (s : State) (fs : List Frame) : State :=
  fs.foldl (fun st f => tick f st) s

/-- The change a call makes to the number of sinks held: a successful
`getDrawing` adds one, a `returnDrawing` takes one away. -/
def Call.heldDelta (c : Call) : ℤ :=
  match c with
  | Call.getDrawing (some _) => 1
  | Call.returnDrawing => -1
  | _ => 0

/-- Successful acquisitions minus releases in a log of calls. -/
def heldCount (calls : List Call) : ℤ :=
  (calls.map Call.heldDelta).sum

/-- Whether a call is a `draw`. -/
def Call.isDraw (c : Call) : Bool :=
  match c with
  | Call.draw _ _ _ _ _ _ => true
  | _ => false

/-- Whether a call is an `endDraw`. -/
def Call.isEndDraw (c : Call) : Bool :=
  match c with
  | Call.endDraw _ _ _ _ => true
  | _ => false

/-- Whether a call is a `returnDrawing`. -/
def Call.isReturnDrawing (c : Call) : Bool :=
  match c with
  | Call.returnDrawing => true
  | _ => false

/-- The `draw` calls of a log, in order. -/
def draws (calls : List Call) : List Call :=
  calls.filter Call.isDraw

/-- Whether the start-draw intent fires in a step: the step is `_startDraw`
itself, or an owned tick whose resolved holder reads `startDrawing`. -/
def Step.startFires (st : Step) : Bool :=
  match st with
  | Step.startDraw _ _ => true
  | Step.tick f =>
    f.isMine &&
      match holderOf f with
      | some g => (f.userinput g).startDrawing
      | none => false
  | _ => false

/-- Every start-draw intent of the sequence fires in a state with no stroke
active. -/
def StartsWhenIdle (s : State) (steps : List Step) : Prop :=
  match steps with
  | [] => True
  | st :: rest =>
    (st.startFires = true → s.currentDrawing = none) ∧ StartsWhenIdle (step s st) rest

/-- The sampling test of `_doDraw` is blocked in state `p`: with a stroke
active, the accumulated time plus `dt` is below the sample interval or the
pointer is closer to the sink's last point than the minimum distance. -/
def samplingBlockedAt (f : Frame) (p : State) : Prop :=
  match p.currentDrawing with
  | some k =>
    p.timeSinceLastDraw + f.dt < p.data.drawFrequency ∨
      (f.getLastPoint k).distanceToGe p.worldPosition p.data.minDistanceBetweenPoints = false
  | none => True

/-- On every tick of the sequence the sampling test is blocked in the state in
which `_doDraw` is entered. -/
def SamplingBlocked (s : State) (fs : List Frame) : Prop :=
  match fs with
  | [] => True
  | f :: rest => samplingBlockedAt f (tickBeforeDraw f s) ∧ SamplingBlocked (tick f s) rest

/-- The log of calls accounts for the sink held: one more successful
`getDrawing` than `returnDrawing` while a stroke is active, as many otherwise. -/
def HeldMatches (s : State) : Prop :=
  heldCount s.calls = if s.currentDrawing.isSome then 1 else 0

instance HeldMatches.decidable (s : State) : Decidable (HeldMatches s) :=
  inferInstanceAs (Decidable (heldCount s.calls = if s.currentDrawing.isSome then 1 else 0))

instance StartsWhenIdle.decidable : (s : State) → (steps : List Step) →
    Decidable (StartsWhenIdle s steps)
  | _, [] => isTrue trivial
  | s, st :: rest =>
    have := StartsWhenIdle.decidable (step s st) rest
    inferInstanceAs (Decidable
      ((st.startFires = true → s.currentDrawing = none) ∧ StartsWhenIdle (step s st) rest))

instance samplingBlockedAt.decidable (f : Frame) (p : State) :
    Decidable (samplingBlockedAt f p) := by
  unfold samplingBlockedAt
  split <;> infer_instance

instance SamplingBlocked.decidable : (s : State) → (fs : List Frame) →
    Decidable (SamplingBlocked s fs)
  | _, [] => isTrue trivial
  | s, f :: rest =>
    have := SamplingBlocked.decidable (tick f s) rest
    inferInstanceAs (Decidable
      (samplingBlockedAt f (tickBeforeDraw f s) ∧ SamplingBlocked (tick f s) rest))

/-! ## Concrete pens and frames -/

/-- A normalisation that is exact on axis-parallel vectors: it divides by the
sum of the absolute components, and leaves the zero vector alone as
`Vector3.normalize` does.  Used only to instantiate concrete examples. -/
def normalizeAxis (v : Vec3) : Vec3 :=
  let l := |v.x| + |v.y| + |v.z|
  if l = 0 then v else ⟨v.x / l, v.y / l, v.z / l⟩

/-- A context for concrete examples: camera at `(0, 0, 1)`. -/
def ctx0 : Ctx where
  cameraPosition := ⟨0, 0, 1⟩
  normalize := normalizeAxis

/-- No action fires. -/
def noActions : Actions where
  startDrawing := false
  stopDrawing := false
  scalePenTip := 0
  penNextColor := false
  penPrevColor := false
  undoDrawing := false
  switchDrawMode := false

/-- An owned tick in which the right hand holds the pen, nothing is pressed,
the pen tip is at `tip`, the sink's last point is `lastPoint` and the time
step is `dt`. -/
def heldFrame (tip lastPoint : Vec3) (dt : ℚ) : Frame where
  isMine := true
  ctx := ctx0
  rightHandHeld := true
  leftHandHeld := false
  rightRemoteHeld := false
  userinput := fun _ => noActions
  getDrawingOnStart := some 0
  getDrawingOnUndo := some 0
  cursorPose := none
  parentRay := ⟨⟨0, 0, 0⟩, ⟨0, -1, 0⟩⟩
  intersectObjects := fun _ _ => []
  tipWorldPosition := tip
  getLastPoint := fun _ => lastPoint
  entities := []
  dt := dt

/-- An owned tick in which nothing holds the pen: `heldFrame` with the right
hand released. -/
def looseFrame (tip lastPoint : Vec3) (dt : ℚ) : Frame :=
  { heldFrame tip lastPoint dt with rightHandHeld := false }

/-- An owned tick like `heldFrame` in which the raycast hits `hit`. -/
def hitFrame (hit : Intersection) (dt : ℚ) : Frame :=
  { heldFrame hit.point ⟨0, 0, 0⟩ dt with intersectObjects := fun _ _ => [hit] }

/-- The pen after `init` with the schema defaults at the origin. -/
def pen0 : State :=
  init defaultData ⟨0, 0, 0⟩

/-- The pen `pen0` after a successful `_startDraw`: sink `0` is held. -/
def penDrawing : State :=
  _startDraw ctx0 (some 0) pen0

/-- A pen holding sink `0` in the right hand, after an earlier tick without a
hit: `penDrawing` with the holder and the last hit recorded. -/
def penHeld : State :=
  { penDrawing with
    grabberId := some Grabber.playerRightController
    lastIntersectedObject := ObjRef.null }

/-- The pen `penHeld` on entry to `_doDraw` with the tip moved to
`(0, 0, 0.02)` and no time accumulated. -/
def penAtTip : State :=
  { penHeld with worldPosition := ⟨0, 0, 2 / 100⟩ }

/-- The pen `penHeld` with 3 time units accumulated, as after a tick of
`dt = 3` that emitted nothing. -/
def penTimer3 : State :=
  { penHeld with timeSinceLastDraw := 3 }

/-- The pen `penHeld` on entry to `_doDraw` with the tip moved to
`(0, 0, 0.02)` and 3 time units accumulated. -/
def penSampling : State :=
  { penHeld with
    worldPosition := ⟨0, 0, 2 / 100⟩
    timeSinceLastDraw := 3 }

/-- The pen `penHeld` after a tick that hit surface `1` at distance 2. -/
def penOnSurface : State :=
  { penHeld with
    lastIntersectedObject := ObjRef.obj 1
    lastIntersectionDistance := 2 }

/-- The pen `penHeld` switched to the projection mode. -/
def penProjecting : State :=
  { penHeld with data := { penHeld.data with drawMode := DrawMode.PROJECTION } }

/-- A pen with a palette of three colours, at colour index 0. -/
def penThreeColors : State :=
  init { defaultData with availableColors := ["#FF0033", "#FFFF00", "#0099FF"] } ⟨0, 0, 0⟩

/-- A pen with the default bounds and radius. -/
def penRadius : State :=
  init defaultData ⟨0, 0, 0⟩

/-- Whether a call is one of the stroke calls to a sink: `startDraw`, `draw`
or `endDraw`. -/
def Call.isStrokeCall (c : Call) : Bool :=
  match c with
  | Call.startDraw _ _ _ _ _ _ => true
  | Call.draw _ _ _ _ _ _ => true
  | Call.endDraw _ _ _ _ => true
  | _ => false

/-- The other draw mode: line 255 of `_handleInput`. -/
def DrawMode.toggled (m : DrawMode) : DrawMode :=
  if m = DrawMode.DEFAULT_3D then DrawMode.PROJECTION else DrawMode.DEFAULT_3D

/-- An owned tick in which both the right hand and the remote cursor hold the
pen and nothing is pressed. -/
def bothHeldFrame : Frame :=
  { heldFrame ⟨0, 0, 0⟩ ⟨0, 0, 0⟩ 3 with rightRemoteHeld := true }

/-- An owned tick in which only the remote cursor holds the pen, a cursor pose
is supplied and the raycast hits `hit`. -/
def cursorFrame (hit : Intersection) : Frame :=
  { hitFrame hit 3 with
    rightHandHeld := false
    rightRemoteHeld := true
    cursorPose := some ⟨⟨0, 0, 0⟩, ⟨0, 0, -1⟩⟩ }

/-- While no stroke is active the sampling timer is zero. -/
def IdleTimerZero (s : State) : Prop :=
  s.currentDrawing = none → s.timeSinceLastDraw = 0

instance IdleTimerZero.decidable (s : State) : Decidable (IdleTimerZero s) :=
  inferInstanceAs (Decidable (s.currentDrawing = none → s.timeSinceLastDraw = 0))

/-- The pen `pen0` after one owned tick with the pen held in the right hand at
the origin and nothing pressed. -/
def penTicked : State :=
  { pen0 with
    grabberId := some Grabber.playerRightController
    lastIntersectedObject := ObjRef.null
    dirty := false }

/-- A run from `pen0`: a quiet tick, a start-draw handed sink `0`, a tick of
`dt = 3` with the pen at rest, and a second start-draw handed sink `0`. -/
def restartRun : List Step :=
  [Step.tick (heldFrame ⟨0, 0, 0⟩ ⟨0, 0, 0⟩ 3), Step.startDraw ctx0 (some 0),
    Step.tick (heldFrame ⟨0, 0, 0⟩ ⟨0, 0, 0⟩ 3), Step.startDraw ctx0 (some 0)]

/-- A run from `pen0`: a quiet tick, a start-draw handed sink `0`, a tick of
`dt = 3` with the pen at rest, and a stop-draw. -/
def strokeRun : List Step :=
  [Step.tick (heldFrame ⟨0, 0, 0⟩ ⟨0, 0, 0⟩ 3), Step.startDraw ctx0 (some 0),
    Step.tick (heldFrame ⟨0, 0, 0⟩ ⟨0, 0, 0⟩ 3), Step.endDraw ctx0]

/-- The normal as the specification words it:
`normalize(direction) × normalize(position − cameraWorldPosition)`, for the
camera's position in world space. -/
def specNormal (normalize : Vec3 → Vec3) (cameraWorldPosition position direction : Vec3) : Vec3 :=
  (normalize direction).crossVectors (normalize (position.subVectors cameraWorldPosition))

/-- An owned tick like `heldFrame` on which the right hand's `startDrawing`
action fires. -/
def startFrame (tip lastPoint : Vec3) (dt : ℚ) : Frame :=
  { heldFrame tip lastPoint dt with
    userinput := fun _ => { noActions with startDrawing := true } }

/-- The time step of a step is not negative (intents have none). -/
def Step.dtNonneg (st : Step) : Prop :=
  match st with
  | Step.tick f => 0 ≤ f.dt
  | _ => True

instance Step.dtNonneg.decidable (st : Step) : Decidable st.dtNonneg := by
  unfold Step.dtNonneg
  split <;> infer_instance

/-- A tick like `heldFrame` for a pen that is not locally owned. -/
def foreignFrame (tip lastPoint : Vec3) (dt : ℚ) : Frame :=
  { heldFrame tip lastPoint dt with isMine := false }

/-- Every tick of the step normalises vectors with `N`. -/
def Step.normalizesWith (N : Vec3 → Vec3) (st : Step) : Prop :=
  match st with
  | Step.tick f => f.ctx.normalize = N
  | _ => True

end Pen

/-! # Grabbable toggle (`src/components/grabbable-toggle.js`)

The component keeps one flag, `toggle`, and reacts to `grab-end` events.  An
event type that is `null`, `undefined` or absent is `none`; the release lists
hold strings. -/

namespace GrabbableToggle

/-- The `buttonEvent` of a `grab-end` event, with its `type`. -/
structure ButtonEvent where
  type : Option String
deriving DecidableEq

/-- The `detail` of a `grab-end` event; `buttonEvent` is `none` when falsy. -/
structure Detail where
  buttonEvent : Option ButtonEvent
deriving DecidableEq

/-- A `grab-end` event; `detail` is `none` when falsy. -/
structure GrabEvent where
  detail : Option Detail
deriving DecidableEq

/-- The component: the two schema lists (lines 3-4) and `this.toggle`. -/
structure Component where
  primaryReleaseEvents : List String
  secondaryReleaseEvents : List String
  toggle : Bool
deriving DecidableEq

/-- What a listener call leaves behind: the component, and whether
`e.stopImmediatePropagation()` was called. -/
structure Outcome where
  component : Component
  propagationStopped : Bool
deriving DecidableEq

/-- Lines 7-8: `init`, for the schema lists given. -/
def init (primaryReleaseEvents secondaryReleaseEvents : List String) : Component where
  primaryReleaseEvents := primaryReleaseEvents
  secondaryReleaseEvents := secondaryReleaseEvents
  toggle := false

/-- The schema defaults (lines 3-4) after `init`. -/
def defaultComponent : Component :=
  init ["hand_release", "action_release"] ["secondary_hand_release", "secondary_action_release"]

/-- The test `list.indexOf(type) !== -1` for a list of strings. -/
def indexOfFound (list : List String) (type : Option String) : Bool :=
  match type with
  | some t => list.contains t
  | none => false

/-- Lines 29-31: `isPrimaryRelease(type)`. -/
def isPrimaryRelease (c : Component) (type : Option String) : Bool :=
  indexOfFound c.primaryReleaseEvents type

/-- Lines 33-35: `isSecondaryRelease(type)`. -/
def isSecondaryRelease (c : Component) (type : Option String) : Bool :=
  indexOfFound c.secondaryReleaseEvents type

/-- Line 20: `e.detail && e.detail.buttonEvent ? e.detail.buttonEvent.type : null`. -/
def eventType (e : GrabEvent) : Option String :=
  match e.detail with
  | some d =>
    match d.buttonEvent with
    | some b => b.type
    | none => none
  | none => none

/-- Lines 19-27: `onGrabEnd(e)`. -/
def onGrabEnd (c : Component) (e : GrabEvent) : Outcome :=
  let type := eventType e
  if (isPrimaryRelease c type && !c.toggle) || isSecondaryRelease c type then
    { component := { c with toggle := true }, propagationStopped := true }
  else if c.toggle && isPrimaryRelease c type then
    { component := { c with toggle := false }, propagationStopped := false }
  else { component := c, propagationStopped := false }

/-- A `grab-end` event whose button event has the type `t`. -/
def buttonRelease (t : String) : GrabEvent :=
  { detail := some { buttonEvent := some { type := some t } } }

end GrabbableToggle

namespace Pen

theorem tick_eq (f : Frame) (s : State) :
    tick f s = if f.isMine then _doDraw f (tickIntersection f s) (tickBeforeDraw f s) else s :=
  rfl

theorem tick_of_mine (f : Frame) (s : State) (hm : f.isMine = true) :
    tick f s = _doDraw f (tickIntersection f s) (tickBeforeDraw f s) := by
  rw [tick_eq, if_pos hm]

/-! ## The sink-holding invariant -/

theorem heldCount_append (xs ys : List Call) :
    heldCount (xs ++ ys) = heldCount xs + heldCount ys := by
  simp [heldCount]

theorem heldMatches_congr {s t : State} (hc : t.calls = s.calls)
    (hd : t.currentDrawing = s.currentDrawing) (h : HeldMatches s) : HeldMatches t := by
  unfold HeldMatches at *
  rw [hc, hd]
  exact h

theorem heldMatches_startDraw (c : Ctx) (got : Option Nat) (s : State) (h : HeldMatches s)
    (hidle : s.currentDrawing = none) : HeldMatches (_startDraw c got s) := by
  unfold HeldMatches at *
  rw [hidle] at h
  cases got <;> simp_all [_startDraw, heldCount_append, heldCount, Call.heldDelta]

theorem heldMatches_endDraw (c : Ctx) (s : State) (h : HeldMatches s) :
    HeldMatches (_endDraw c s) := by
  unfold HeldMatches at *
  unfold _endDraw
  cases hd : s.currentDrawing with
  | none => simp_all
  | some k =>
    rw [hd] at h
    simp_all [heldCount_append, heldCount, Call.heldDelta]

theorem heldMatches_undoDraw (got : Option Nat) (s : State) (h : HeldMatches s) :
    HeldMatches (_undoDraw got s) := by
  unfold HeldMatches at *
  cases got <;> simp_all [_undoDraw, heldCount_append, heldCount, Call.heldDelta]

theorem heldMatches_changeColor (m : ℤ) (s : State) (h : HeldMatches s) :
    HeldMatches (_changeColor m s) :=
  heldMatches_congr rfl rfl h

theorem heldMatches_changeRadius (m : ℚ) (s : State) (h : HeldMatches s) :
    HeldMatches (_changeRadius m s) :=
  heldMatches_congr rfl rfl h

theorem handleInput_eq (f : Frame) (s : State) :
    _handleInput f s =
      match holderOf f with
      | none => { s with grabberId := none }
      | some g => intents f g (withHolder g s) := by
  unfold _handleInput holderOf
  cases f.rightHandHeld <;> cases f.leftHandHeld <;> cases f.rightRemoteHeld <;> rfl

theorem heldMatches_ite (b : Prop) [Decidable b] {s t : State} (hs : HeldMatches s)
    (ht : HeldMatches t) : HeldMatches (if b then t else s) := by
  split <;> assumption

theorem heldMatches_intents (f : Frame) (g : Grabber) (s : State) (h : HeldMatches s)
    (hidle : (f.userinput g).startDrawing = true → s.currentDrawing = none) :
    HeldMatches (intents f g s) := by
  unfold intents
  lift_lets
  intro a s2 s3 s4 s5 s6 s7
  have h2 : HeldMatches s2 := by
    show HeldMatches (if a.startDrawing = true then _ else _)
    split
    · exact heldMatches_startDraw _ _ _ h (hidle (by assumption))
    · exact h
  have h3 : HeldMatches s3 := heldMatches_ite _ h2 (heldMatches_endDraw _ _ h2)
  have h4 : HeldMatches s4 := heldMatches_ite _ h3 (heldMatches_changeRadius _ _ h3)
  have h5 : HeldMatches s5 := heldMatches_ite _ h4 (heldMatches_changeColor _ _ h4)
  have h6 : HeldMatches s6 := heldMatches_ite _ h5 (heldMatches_changeColor _ _ h5)
  have h7 : HeldMatches s7 := heldMatches_ite _ h6 (heldMatches_undoDraw _ _ h6)
  exact heldMatches_ite _ h7 (heldMatches_congr rfl rfl h7)

theorem heldMatches_handleInput (f : Frame) (s : State) (h : HeldMatches s)
    (hidle : ∀ g, holderOf f = some g → (f.userinput g).startDrawing = true →
      s.currentDrawing = none) :
    HeldMatches (_handleInput f s) := by
  rw [handleInput_eq]
  cases hg : holderOf f with
  | none => exact heldMatches_congr rfl rfl h
  | some g =>
    refine heldMatches_intents f g _ ?_ ?_
    · cases g <;> exact heldMatches_congr rfl rfl h
    · intro hs
      have := hidle g hg hs
      cases g <;> exact this

theorem doDraw_eq (f : Frame) (i : Option Intersection) (s : State) :
    _doDraw f i s =
      targetsStage f (releaseStage f (sampleStage f (directionStage f (breakStage f i s)))) :=
  rfl

theorem heldMatches_breakStage (f : Frame) (i : Option Intersection) (s : State)
    (h : HeldMatches s) : HeldMatches (breakStage f i s) := by
  unfold breakStage
  exact heldMatches_congr rfl rfl
    (heldMatches_ite _ h (heldMatches_endDraw _ _ (heldMatches_congr rfl rfl h)))

theorem heldMatches_directionStage (f : Frame) (s : State) (h : HeldMatches s) :
    HeldMatches (directionStage f s) := by
  unfold directionStage
  exact heldMatches_ite _ (heldMatches_congr rfl rfl h) h

theorem heldMatches_sampleStage (f : Frame) (s : State) (h : HeldMatches s) :
    HeldMatches (sampleStage f s) := by
  unfold sampleStage
  split
  · rename_i k hk
    refine heldMatches_congr (s := if sampleDue f k s = true then _ else s) rfl rfl ?_
    refine heldMatches_ite _ h ?_
    unfold HeldMatches at h ⊢
    simpa [heldCount_append, heldCount, Call.heldDelta] using h
  · exact h

theorem heldMatches_releaseStage (f : Frame) (s : State) (h : HeldMatches s) :
    HeldMatches (releaseStage f s) := by
  unfold releaseStage
  exact heldMatches_ite _ h (heldMatches_endDraw _ _ h)

theorem heldMatches_targetsStage (f : Frame) (s : State) (h : HeldMatches s) :
    HeldMatches (targetsStage f s) := by
  unfold targetsStage
  exact heldMatches_ite _ h (heldMatches_congr rfl rfl h)

theorem heldMatches_doDraw (f : Frame) (i : Option Intersection) (s : State)
    (h : HeldMatches s) : HeldMatches (_doDraw f i s) := by
  rw [doDraw_eq]
  exact heldMatches_targetsStage _ _ (heldMatches_releaseStage _ _ (heldMatches_sampleStage _ _
    (heldMatches_directionStage _ _ (heldMatches_breakStage _ _ _ h))))

theorem heldMatches_tick (f : Frame) (s : State) (h : HeldMatches s)
    (hidle : (Step.tick f).startFires = true → s.currentDrawing = none) :
    HeldMatches (tick f s) := by
  rw [tick_eq]
  split
  · rename_i hm
    apply heldMatches_doDraw
    have hh : HeldMatches (_handleInput f s) := by
      apply heldMatches_handleInput f s h
      intro g hg hs
      apply hidle
      simp [Step.startFires, hm, hg, hs]
    unfold tickBeforeDraw _updatePenTip
    split <;> exact heldMatches_congr rfl rfl hh
  · exact h

theorem heldMatches_step (st : Step) (s : State) (h : HeldMatches s)
    (hidle : st.startFires = true → s.currentDrawing = none) : HeldMatches (step s st) := by
  cases st with
  | tick f => exact heldMatches_tick f s h hidle
  | startDraw c got => exact heldMatches_startDraw c got s h (hidle rfl)
  | endDraw c => exact heldMatches_endDraw c s h
  | undoDraw got => exact heldMatches_undoDraw got s h

theorem heldMatches_run (steps : List Step) (s : State) (h : HeldMatches s)
    (hidle : StartsWhenIdle s steps) : HeldMatches (run s steps) := by
  induction steps generalizing s with
  | nil => exact h
  | cons st rest ih =>
    obtain ⟨h1, h2⟩ := hidle
    exact ih (step s st) (heldMatches_step st s h h1) h2

/-! ## C1: start-draw during an active stroke -/

/-- C1 (counterexample): in the state `penDrawing`, where sink `0` is held, a
second `_startDraw` to which the Drawing Manager hands sink `0` again is not a
no-op: `getDrawing` is called and a second `startDraw` goes to the sink; and
when the manager hands out nothing the stroke is dropped without any
`endDraw` or `returnDrawing`. -/
theorem C1_startDraw_while_drawing_not_noop :
    penDrawing.currentDrawing = some 0 ∧
      (_startDraw ctx0 (some 0) penDrawing).calls =
        penDrawing.calls ++
          [Call.getDrawing (some 0),
            Call.startDraw 0 penDrawing.worldPosition penDrawing.direction
              (_getNormal ctx0 penDrawing.worldPosition penDrawing.direction)
              penDrawing.data.color penDrawing.data.radius] ∧
      _startDraw ctx0 (some 0) penDrawing ≠ penDrawing ∧
      (_startDraw ctx0 none penDrawing).currentDrawing = none ∧
      (_startDraw ctx0 none penDrawing).calls = penDrawing.calls ++ [Call.getDrawing none] := by
  refine ⟨rfl, rfl, ?_, rfl, rfl⟩
  intro h
  have hl := congrArg (fun t => t.calls.length) h
  revert hl
  decide

/-- C1 (amended): in every pen state, with a stroke active or not, `_startDraw` calls
`getDrawing` exactly once and stores what it returns in `currentDrawing`; when
a sink is returned it then issues exactly one `startDraw` to that sink, with
the current position, direction, the normal computed by `_getNormal`, colour
and radius, and stores that normal; the timer, the positions, the direction,
the holder, the colour index and the configuration are unchanged. -/
theorem C1_startDraw_while_drawing_effect (c : Ctx) (got : Option Nat) (s : State) :
    (_startDraw c got s).currentDrawing = got ∧
      (_startDraw c got s).calls =
        s.calls ++ Call.getDrawing got ::
          (match got with
          | some j =>
            [Call.startDraw j s.worldPosition s.direction
              (_getNormal c s.worldPosition s.direction) s.data.color s.data.radius]
          | none => []) ∧
      (_startDraw c got s).normal =
        (match got with
        | some _ => _getNormal c s.worldPosition s.direction
        | none => s.normal) ∧
      (_startDraw c got s).timeSinceLastDraw = s.timeSinceLastDraw ∧
      (_startDraw c got s).lastPosition = s.lastPosition ∧
      (_startDraw c got s).worldPosition = s.worldPosition ∧
      (_startDraw c got s).direction = s.direction ∧
      (_startDraw c got s).grabberId = s.grabberId ∧
      (_startDraw c got s).colorIndex = s.colorIndex ∧
      (_startDraw c got s).data = s.data ∧
      (_startDraw c got s).lastIntersectedObject = s.lastIntersectedObject ∧
      (_startDraw c got s).lastIntersectionDistance = s.lastIntersectionDistance := by
  cases got <;> simp [_startDraw]

/-! ## C2: sinks held across a run -/

/-- C2 (counterexample): from the initial state, two start-draw intents in a
row, each handed sink `0` by the Drawing Manager, make two successful
`getDrawing` calls with no `returnDrawing` between them, so two acquisitions
are outstanding; and an undo during a stroke acquires while the stroke's sink
is held (the log up to its `getDrawing` counts two). -/
theorem C2_double_start_holds_two :
    heldCount (run pen0 [Step.startDraw ctx0 (some 0), Step.startDraw ctx0 (some 0)]).calls = 2 ∧
      ((run pen0 [Step.startDraw ctx0 (some 0), Step.startDraw ctx0 (some 0)]).calls.map
          Call.heldDelta) = [1, 0, 1, 0] ∧
      ((run pen0 [Step.startDraw ctx0 (some 0), Step.undoDraw (some 0)]).calls.map
          Call.heldDelta) = [1, 0, 1, 0, -1] := by
  decide

/-- C2 (amended): for every sequence of ticks and intents from the initial
state in which each start-draw intent fires while no stroke is active, after
every tick or intent the number of sinks held (successful `getDrawing` calls
minus `returnDrawing` calls) is one when a stroke is active and zero
otherwise, so it is 0 or 1. -/
theorem C2_held_zero_or_one (data : Data) (position : Vec3) (steps : List Step)
    (h : StartsWhenIdle (init data position) steps) :
    heldCount (run (init data position) steps).calls =
        (if (run (init data position) steps).currentDrawing.isSome then 1 else 0) ∧
      (heldCount (run (init data position) steps).calls = 0 ∨
        heldCount (run (init data position) steps).calls = 1) := by
  have hm : HeldMatches (run (init data position) steps) :=
    heldMatches_run steps (init data position) (by simp [HeldMatches, init, heldCount]) h
  refine ⟨hm, ?_⟩
  unfold HeldMatches at hm
  rw [hm]
  split <;> simp

/-- C2 (witness): a start, an undo during the stroke, a stop and an owned tick
with the pen held, from `pen0`. -/
theorem C2_held_zero_or_one_witness :
    StartsWhenIdle (init defaultData ⟨0, 0, 0⟩)
        [Step.startDraw ctx0 (some 0), Step.undoDraw (some 0), Step.endDraw ctx0,
          Step.tick (heldFrame ⟨0, 0, 0⟩ ⟨0, 0, 0⟩ 3)] ∧
      (heldCount (run (init defaultData ⟨0, 0, 0⟩)
          [Step.startDraw ctx0 (some 0), Step.undoDraw (some 0), Step.endDraw ctx0,
            Step.tick (heldFrame ⟨0, 0, 0⟩ ⟨0, 0, 0⟩ 3)]).calls = 0 ∨
        heldCount (run (init defaultData ⟨0, 0, 0⟩)
          [Step.startDraw ctx0 (some 0), Step.undoDraw (some 0), Step.endDraw ctx0,
            Step.tick (heldFrame ⟨0, 0, 0⟩ ⟨0, 0, 0⟩ 3)]).calls = 1) :=
  have h : StartsWhenIdle (init defaultData ⟨0, 0, 0⟩)
      [Step.startDraw ctx0 (some 0), Step.undoDraw (some 0), Step.endDraw ctx0,
        Step.tick (heldFrame ⟨0, 0, 0⟩ ⟨0, 0, 0⟩ 3)] := by
    simp [StartsWhenIdle, Step.startFires, init, heldFrame, holderOf, noActions]
  ⟨h, (C2_held_zero_or_one defaultData ⟨0, 0, 0⟩ _ h).2⟩

/-! ## Frame lemmas -/

theorem ite_keeps {α : Type} (p : State → α) (b : Prop) [Decidable b] (t u : State)
    (h : p t = p u) : p (if b then t else u) = p u := by
  split
  · exact h
  · rfl

theorem intents_keeps {α : Type} (p : State → α)
    (hS : ∀ c got s, p (_startDraw c got s) = p s)
    (hE : ∀ c s, p (_endDraw c s) = p s)
    (hR : ∀ m s, p (_changeRadius m s) = p s)
    (hC : ∀ m s, p (_changeColor m s) = p s)
    (hU : ∀ got s, p (_undoDraw got s) = p s)
    (hM : ∀ (s : State) (m : DrawMode), p { s with data := { s.data with drawMode := m } } = p s)
    (f : Frame) (g : Grabber) (s1 : State) : p (intents f g s1) = p s1 := by
  unfold intents
  lift_lets
  intro a s2 s3 s4 s5 s6 s7
  have h2 : p s2 = p s1 := ite_keeps p _ _ _ (hS _ _ _)
  have h3 : p s3 = p s2 := ite_keeps p _ _ _ (hE _ _)
  have h4 : p s4 = p s3 := ite_keeps p _ _ _ (hR _ _)
  have h5 : p s5 = p s4 := ite_keeps p _ _ _ (hC _ _)
  have h6 : p s6 = p s5 := ite_keeps p _ _ _ (hC _ _)
  have h7 : p s7 = p s6 := ite_keeps p _ _ _ (hU _ _)
  have h8 : p (if g ≠ Grabber.cursor ∧ a.switchDrawMode = true then
      ({ s7 with
        data := { s7.data with
          drawMode :=
            if s7.data.drawMode = DrawMode.DEFAULT_3D then DrawMode.PROJECTION
            else DrawMode.DEFAULT_3D } } : State)
      else s7) = p s7 := ite_keeps p _ _ _ (hM s7 _)
  exact h8.trans (h7.trans (h6.trans (h5.trans (h4.trans (h3.trans h2)))))

theorem handleInput_keeps {α : Type} (p : State → α)
    (hS : ∀ c got s, p (_startDraw c got s) = p s)
    (hE : ∀ c s, p (_endDraw c s) = p s)
    (hR : ∀ m s, p (_changeRadius m s) = p s)
    (hC : ∀ m s, p (_changeColor m s) = p s)
    (hU : ∀ got s, p (_undoDraw got s) = p s)
    (hM : ∀ (s : State) (m : DrawMode), p { s with data := { s.data with drawMode := m } } = p s)
    (hG : ∀ (s : State) (g : Option Grabber), p { s with grabberId := g } = p s)
    (f : Frame) (s : State) : p (_handleInput f s) = p s := by
  rw [handleInput_eq]
  cases holderOf f with
  | none => exact hG s none
  | some g =>
    have hw : p (withHolder g s) = p s := by
      cases g
      · exact hG s _
      · exact hG s _
      · exact (hG { s with data := { s.data with drawMode := DrawMode.PROJECTION } } _).trans
          (hM s _)
    exact (intents_keeps p hS hE hR hC hU hM f g _).trans hw

theorem draws_append (xs ys : List Call) : draws (xs ++ ys) = draws xs ++ draws ys := by
  simp [draws]

theorem startDraw_draws (c : Ctx) (got : Option Nat) (s : State) :
    draws (_startDraw c got s).calls = draws s.calls := by
  cases got <;> simp [_startDraw, draws, Call.isDraw]

theorem endDraw_draws (c : Ctx) (s : State) : draws (_endDraw c s).calls = draws s.calls := by
  unfold _endDraw
  split <;> simp [draws, Call.isDraw]

theorem undoDraw_draws (got : Option Nat) (s : State) :
    draws (_undoDraw got s).calls = draws s.calls := by
  cases got <;> simp [_undoDraw, draws, Call.isDraw]

theorem handleInput_draws (f : Frame) (s : State) :
    draws (_handleInput f s).calls = draws s.calls :=
  handleInput_keeps (fun t => draws t.calls) startDraw_draws endDraw_draws (fun _ _ => rfl)
    (fun _ _ => rfl) undoDraw_draws (fun _ _ => rfl) (fun _ _ => rfl) f s

theorem startDraw_grabberId (c : Ctx) (got : Option Nat) (s : State) :
    (_startDraw c got s).grabberId = s.grabberId := by
  cases got <;> rfl

theorem endDraw_grabberId (c : Ctx) (s : State) : (_endDraw c s).grabberId = s.grabberId := by
  unfold _endDraw
  split <;> rfl

theorem undoDraw_grabberId (got : Option Nat) (s : State) :
    (_undoDraw got s).grabberId = s.grabberId := by
  cases got <;> rfl

theorem handleInput_grabberId (f : Frame) (s : State) :
    (_handleInput f s).grabberId = holderOf f := by
  rw [handleInput_eq]
  cases holderOf f with
  | none => rfl
  | some g =>
    have h := intents_keeps (fun t => t.grabberId) startDraw_grabberId endDraw_grabberId
      (fun _ _ => rfl) (fun _ _ => rfl) undoDraw_grabberId (fun _ _ => rfl) f g (withHolder g s)
    have hw : (withHolder g s).grabberId = some g := by cases g <;> rfl
    exact h.trans hw

theorem tickBeforeDraw_calls (f : Frame) (s : State) :
    (tickBeforeDraw f s).calls = (_handleInput f s).calls := by
  unfold tickBeforeDraw _updatePenTip
  split <;> rfl

theorem tickBeforeDraw_currentDrawing (f : Frame) (s : State) :
    (tickBeforeDraw f s).currentDrawing = (_handleInput f s).currentDrawing := by
  unfold tickBeforeDraw _updatePenTip
  split <;> rfl

theorem tickBeforeDraw_grabberId (f : Frame) (s : State) :
    (tickBeforeDraw f s).grabberId = holderOf f := by
  rw [← handleInput_grabberId f s]
  unfold tickBeforeDraw _updatePenTip
  split <;> rfl

/-! ## The stages of `_doDraw` -/

theorem endDraw_currentDrawing (c : Ctx) (s : State) : (_endDraw c s).currentDrawing = none := by
  unfold _endDraw
  split
  · rfl
  · assumption

theorem endDraw_of_none (c : Ctx) (s : State) (h : s.currentDrawing = none) :
    _endDraw c s = s := by
  unfold _endDraw
  rw [h]

@[simp]
theorem recordHit_currentDrawing (i : Option Intersection) (s : State) :
    (recordHit i s).currentDrawing = s.currentDrawing :=
  rfl

@[simp]
theorem recordHit_calls (i : Option Intersection) (s : State) :
    (recordHit i s).calls = s.calls :=
  rfl

@[simp]
theorem recordHit_timeSinceLastDraw (i : Option Intersection) (s : State) :
    (recordHit i s).timeSinceLastDraw = s.timeSinceLastDraw :=
  rfl

@[simp]
theorem recordHit_data (i : Option Intersection) (s : State) :
    (recordHit i s).data = s.data :=
  rfl

@[simp]
theorem recordHit_worldPosition (i : Option Intersection) (s : State) :
    (recordHit i s).worldPosition = s.worldPosition :=
  rfl

@[simp]
theorem recordHit_lastPosition (i : Option Intersection) (s : State) :
    (recordHit i s).lastPosition = s.lastPosition :=
  rfl

@[simp]
theorem recordHit_direction (i : Option Intersection) (s : State) :
    (recordHit i s).direction = s.direction :=
  rfl

@[simp]
theorem recordHit_grabberId (i : Option Intersection) (s : State) :
    (recordHit i s).grabberId = s.grabberId :=
  rfl

theorem breakStage_of_not_jump (f : Frame) (i : Option Intersection) (s : State)
    (h : jumpBreak i s = false) : breakStage f i s = recordHit i s := by
  unfold breakStage recordHit
  simp [h]

theorem breakStage_of_jump (f : Frame) (i : Option Intersection) (s : State)
    (h : jumpBreak i s = true) :
    breakStage f i s = recordHit i (_endDraw f.ctx { s with worldPosition := s.lastPosition }) := by
  unfold breakStage recordHit
  simp [h]

theorem directionStage_currentDrawing (f : Frame) (s : State) :
    (directionStage f s).currentDrawing = s.currentDrawing := by
  unfold directionStage
  split <;> rfl

theorem directionStage_calls (f : Frame) (s : State) :
    (directionStage f s).calls = s.calls := by
  unfold directionStage
  split <;> rfl

theorem directionStage_grabberId (f : Frame) (s : State) :
    (directionStage f s).grabberId = s.grabberId := by
  unfold directionStage
  split <;> rfl

theorem directionStage_timeSinceLastDraw (f : Frame) (s : State) :
    (directionStage f s).timeSinceLastDraw = s.timeSinceLastDraw := by
  unfold directionStage
  split <;> rfl

theorem directionStage_data (f : Frame) (s : State) :
    (directionStage f s).data = s.data := by
  unfold directionStage
  split <;> rfl

theorem directionStage_worldPosition (f : Frame) (s : State) :
    (directionStage f s).worldPosition = s.worldPosition := by
  unfold directionStage
  split <;> rfl

theorem sampleStage_calls (f : Frame) (t : State) :
    (sampleStage f t).calls = t.calls ++ sampled f t := by
  unfold sampleStage sampled
  split
  · split <;> simp
  · simp

theorem sampleStage_currentDrawing (f : Frame) (t : State) :
    (sampleStage f t).currentDrawing = t.currentDrawing := by
  unfold sampleStage
  split
  · split <;> rfl
  · rfl

theorem sampleStage_grabberId (f : Frame) (t : State) :
    (sampleStage f t).grabberId = t.grabberId := by
  unfold sampleStage
  split
  · split <;> rfl
  · rfl

theorem sampleStage_timeSinceLastDraw (f : Frame) (t : State) (k : Nat)
    (h : t.currentDrawing = some k) :
    (sampleStage f t).timeSinceLastDraw =
      jsMod (t.timeSinceLastDraw + f.dt) t.data.drawFrequency := by
  unfold sampleStage
  rw [h]

theorem targetsStage_calls (f : Frame) (s : State) : (targetsStage f s).calls = s.calls := by
  unfold targetsStage
  split <;> rfl

theorem targetsStage_currentDrawing (f : Frame) (s : State) :
    (targetsStage f s).currentDrawing = s.currentDrawing := by
  unfold targetsStage
  split <;> rfl

theorem targetsStage_grabberId (f : Frame) (s : State) :
    (targetsStage f s).grabberId = s.grabberId := by
  unfold targetsStage
  split <;> rfl

theorem targetsStage_timeSinceLastDraw (f : Frame) (s : State) :
    (targetsStage f s).timeSinceLastDraw = s.timeSinceLastDraw := by
  unfold targetsStage
  split <;> rfl

theorem releaseStage_draws (f : Frame) (s : State) :
    draws (releaseStage f s).calls = draws s.calls := by
  unfold releaseStage
  split
  · exact endDraw_draws _ _
  · rfl

theorem breakStage_draws (f : Frame) (i : Option Intersection) (s : State) :
    draws (breakStage f i s).calls = draws s.calls := by
  cases h : jumpBreak i s
  · rw [breakStage_of_not_jump f i s h]
    rfl
  · rw [breakStage_of_jump f i s h]
    exact endDraw_draws _ _

theorem sampled_draws (f : Frame) (t : State) : draws (sampled f t) = sampled f t := by
  unfold sampled
  split
  · split <;> simp [draws, Call.isDraw]
  · rfl

theorem doDraw_draws (f : Frame) (i : Option Intersection) (s : State) :
    draws (_doDraw f i s).calls =
      draws s.calls ++ sampled f (directionStage f (breakStage f i s)) := by
  rw [doDraw_eq, targetsStage_calls, releaseStage_draws, sampleStage_calls, draws_append,
    directionStage_calls, breakStage_draws, sampled_draws]

/-! ## C3: the sampling test -/

/-- The square-free test `distanceToGe` decides the comparison of the
Euclidean distance with `m` over the reals. -/
theorem distanceToGe_iff_sqrt (a b : Vec3) (m : ℚ) :
    a.distanceToGe b m = true ↔ (m : ℝ) ≤ Real.sqrt ((a.distanceToSquared b : ℚ) : ℝ) := by
  have hd : (0 : ℚ) ≤ a.distanceToSquared b := by
    unfold Vec3.distanceToSquared
    exact add_nonneg (add_nonneg (mul_self_nonneg _) (mul_self_nonneg _)) (mul_self_nonneg _)
  have hd' : (0 : ℝ) ≤ ((a.distanceToSquared b : ℚ) : ℝ) := by exact_mod_cast hd
  unfold Vec3.distanceToGe
  simp only [Bool.or_eq_true, decide_eq_true_eq]
  constructor
  · rintro (h | h)
    · exact le_trans (by exact_mod_cast h) (Real.sqrt_nonneg _)
    · apply Real.le_sqrt_of_sq_le
      rw [sq]
      exact_mod_cast h
  · intro h
    by_cases hm : m ≤ 0
    · exact Or.inl hm
    · right
      have hm' : (0 : ℝ) ≤ (m : ℝ) := by exact_mod_cast (le_of_lt (not_le.mp hm))
      have := (Real.le_sqrt hm' hd').mp h
      rw [sq] at this
      exact_mod_cast this

theorem sampled_eq_nil_of_blocked (f : Frame) (t : State) (h : samplingBlockedAt f t) :
    sampled f t = [] := by
  unfold sampled
  unfold samplingBlockedAt at h
  split
  · rename_i k hk
    rw [hk] at h
    have hs : sampleDue f k t = false := by
      unfold sampleDue
      rcases h with h1 | h1
      · simp [not_le.mpr h1]
      · simp [h1]
    simp [hs]
  · rfl

theorem tick_draws_of_blocked (f : Frame) (s : State)
    (h : samplingBlockedAt f (tickBeforeDraw f s)) :
    draws (tick f s).calls = draws s.calls := by
  rw [tick_eq]
  split
  · rw [doDraw_draws, tickBeforeDraw_calls, handleInput_draws]
    generalize tickIntersection f s = i at *
    generalize tickBeforeDraw f s = p at *
    have hnil : sampled f (directionStage f (breakStage f i p)) = [] := by
      apply sampled_eq_nil_of_blocked
      unfold samplingBlockedAt
      rw [directionStage_currentDrawing, directionStage_timeSinceLastDraw, directionStage_data,
        directionStage_worldPosition]
      cases hj : jumpBreak i p
      · rw [breakStage_of_not_jump f i p hj]
        exact h
      · rw [breakStage_of_jump f i p hj]
        simp only [recordHit_currentDrawing, endDraw_currentDrawing]
    rw [hnil, List.append_nil]
  · rfl

theorem runTicks_draws_of_blocked (fs : List Frame) (s : State) (h : SamplingBlocked s fs) :
    draws (runTicks s fs).calls = draws s.calls := by
  induction fs generalizing s with
  | nil => rfl
  | cons f rest ih =>
    obtain ⟨h1, h2⟩ := h
    exact (ih (tick f s) h2).trans (tick_draws_of_blocked f s h1)

/-- C3: when `_doDraw` is entered with a stroke active on sink `k` and no jump
break, exactly one `draw` call is issued (to `k`, at the current world
position) if the accumulated time plus `dt` reaches `drawFrequency` and the
distance from `getLastPoint()` to the world position reaches
`minDistanceBetweenPoints`, and none otherwise; and over any number of ticks on
which the time stays below the interval or the pointer stays within the
minimum distance, no `draw` call is issued at all. -/
theorem C3_draw_iff_time_and_distance (f : Frame) (i : Option Intersection) (s : State)
    (k : Nat) (fs : List Frame) (s0 : State) (hk : s.currentDrawing = some k)
    (hj : jumpBreak i s = false) (hq : SamplingBlocked s0 fs) :
    draws (_doDraw f i s).calls =
        draws s.calls ++
          (if s.timeSinceLastDraw + f.dt ≥ s.data.drawFrequency ∧
              (f.getLastPoint k).distanceToGe s.worldPosition
                s.data.minDistanceBetweenPoints = true then
            [Call.draw k s.worldPosition (directionStage f s).direction
              (_getNormal f.ctx s.worldPosition (directionStage f s).direction)
              s.data.color s.data.radius]
          else []) ∧
      draws (runTicks s0 fs).calls = draws s0.calls := by
  refine ⟨?_, runTicks_draws_of_blocked fs s0 hq⟩
  rw [doDraw_draws, breakStage_of_not_jump f i s hj]
  congr 1
  have hd : (directionStage f (recordHit i s)).direction = (directionStage f s).direction := by
    unfold directionStage
    simp only [recordHit_worldPosition, recordHit_lastPosition]
    split <;> rfl
  unfold sampled sampleDue
  rw [directionStage_currentDrawing, directionStage_timeSinceLastDraw, directionStage_data,
    directionStage_worldPosition, hd]
  simp only [hk, recordHit_currentDrawing, recordHit_timeSinceLastDraw, recordHit_data,
    recordHit_worldPosition]
  by_cases h1 : s.timeSinceLastDraw + f.dt ≥ s.data.drawFrequency <;>
    by_cases h2 : (f.getLastPoint k).distanceToGe s.worldPosition
      s.data.minDistanceBetweenPoints = true <;> simp [h1, h2]

/-- C3 (witness): `penSampling` holds sink `0` with 3 time units accumulated
and the tip 0.02 from the sink's last point; a tick of 3 more units emits one
point.  From `penHeld` (timer 0) a single tick of 3 units is blocked. -/
theorem C3_draw_iff_time_and_distance_witness :
    (penSampling.currentDrawing = some 0 ∧ jumpBreak none penSampling = false ∧
        SamplingBlocked penHeld [heldFrame ⟨0, 0, 2 / 100⟩ ⟨0, 0, 0⟩ 3]) ∧
      (draws (_doDraw (heldFrame ⟨0, 0, 2 / 100⟩ ⟨0, 0, 0⟩ 3) none penSampling).calls).length =
        (draws penSampling.calls).length + 1 ∧
      draws (runTicks penHeld [heldFrame ⟨0, 0, 2 / 100⟩ ⟨0, 0, 0⟩ 3]).calls =
        draws penHeld.calls := by
  have h1 : penSampling.currentDrawing = some 0 := rfl
  have h2 : jumpBreak none penSampling = false := by decide
  have h3 : SamplingBlocked penHeld [heldFrame ⟨0, 0, 2 / 100⟩ ⟨0, 0, 0⟩ 3] := by
    refine ⟨?_, trivial⟩
    have hb : tickBeforeDraw (heldFrame ⟨0, 0, 2 / 100⟩ ⟨0, 0, 0⟩ 3) penHeld = penAtTip := rfl
    rw [hb]
    show _ ∨ _
    left
    norm_num [penAtTip, tickBeforeDraw, tickIntersection, _handleInput, heldFrame, noActions,
      _updatePenTip, _getIntersection, penHeld, penDrawing, pen0, init, _startDraw, defaultData]
  have h := C3_draw_iff_time_and_distance (heldFrame ⟨0, 0, 2 / 100⟩ ⟨0, 0, 0⟩ 3) none
    penSampling 0 [heldFrame ⟨0, 0, 2 / 100⟩ ⟨0, 0, 0⟩ 3] penHeld h1 h2 h3
  refine ⟨⟨h1, h2, h3⟩, ?_, h.2⟩
  rw [h.1]
  norm_num [penSampling, penHeld, penDrawing, pen0, init, _startDraw, defaultData, heldFrame,
    Vec3.distanceToGe, Vec3.distanceToSquared]

/-! ## C4: the timer after an emission -/

theorem jsMod_of_bounds (a b : ℚ) (n : ℕ) (hb : 0 < b) (h1 : (n : ℚ) * b ≤ a)
    (h2 : a < ((n : ℚ) + 1) * b) : jsMod a b = a - (n : ℚ) * b := by
  have hq1 : (n : ℚ) ≤ a / b := (le_div_iff₀ hb).mpr h1
  have hq2 : a / b < (n : ℚ) + 1 := (div_lt_iff₀ hb).mpr h2
  have hq0 : (0 : ℚ) ≤ a / b := le_trans (Nat.cast_nonneg n) hq1
  have hfl : ⌊a / b⌋ = (n : ℤ) := by
    rw [Int.floor_eq_iff]
    constructor
    · exact_mod_cast hq1
    · exact_mod_cast hq2
  unfold jsMod jsTrunc
  rw [if_pos hq0, hfl]
  push_cast
  ring

theorem releaseStage_of_active (f : Frame) (t : State) (k : Nat)
    (h : (releaseStage f t).currentDrawing = some k) : releaseStage f t = t := by
  unfold releaseStage at h ⊢
  split
  · rename_i hc
    rw [if_pos hc, endDraw_currentDrawing] at h
    cases h
  · rfl

theorem doDraw_of_active (f : Frame) (i : Option Intersection) (s : State) (k : Nat)
    (h : (_doDraw f i s).currentDrawing = some k) :
    s.currentDrawing = some k ∧ jumpBreak i s = false ∧
      (_doDraw f i s).timeSinceLastDraw =
        jsMod (s.timeSinceLastDraw + f.dt) s.data.drawFrequency := by
  rw [doDraw_eq] at h ⊢
  rw [targetsStage_currentDrawing] at h
  rw [targetsStage_timeSinceLastDraw, releaseStage_of_active f _ k h]
  rw [releaseStage_of_active f _ k h, sampleStage_currentDrawing,
    directionStage_currentDrawing] at h
  cases hj : jumpBreak i s
  · rw [breakStage_of_not_jump f i s hj] at h ⊢
    refine ⟨h, rfl, ?_⟩
    rw [sampleStage_timeSinceLastDraw f _ k (by rw [directionStage_currentDrawing]; exact h),
      directionStage_timeSinceLastDraw, directionStage_data]
    rfl
  · rw [breakStage_of_jump f i s hj] at h
    have hn : (_endDraw f.ctx { s with worldPosition := s.lastPosition }).currentDrawing
        = none := endDraw_currentDrawing _ _
    have h' : (_endDraw f.ctx { s with worldPosition := s.lastPosition }).currentDrawing
        = some k := h
    rw [hn] at h'
    cases h'

theorem startDraw_timeSinceLastDraw (c : Ctx) (got : Option Nat) (s : State) :
    (_startDraw c got s).timeSinceLastDraw = s.timeSinceLastDraw := by
  cases got <;> rfl

theorem undoDraw_timer_and_stroke (got : Option Nat) (s : State) :
    ((_undoDraw got s).currentDrawing, (_undoDraw got s).timeSinceLastDraw) =
      (s.currentDrawing, s.timeSinceLastDraw) := by
  cases got <;> rfl

theorem intents_eq (f : Frame) (g : Grabber) (s1 : State) :
    intents f g s1 = intentsTail f g (intentsHead f g s1) :=
  rfl

theorem intentsTail_keeps {α : Type} (p : State → α)
    (hR : ∀ m s, p (_changeRadius m s) = p s)
    (hC : ∀ m s, p (_changeColor m s) = p s)
    (hU : ∀ got s, p (_undoDraw got s) = p s)
    (hM : ∀ (s : State) (m : DrawMode), p { s with data := { s.data with drawMode := m } } = p s)
    (f : Frame) (g : Grabber) (s3 : State) : p (intentsTail f g s3) = p s3 := by
  unfold intentsTail
  lift_lets
  intro a s4 s5 s6 s7
  have h4 : p s4 = p s3 := ite_keeps p _ _ _ (hR _ _)
  have h5 : p s5 = p s4 := ite_keeps p _ _ _ (hC _ _)
  have h6 : p s6 = p s5 := ite_keeps p _ _ _ (hC _ _)
  have h7 : p s7 = p s6 := ite_keeps p _ _ _ (hU _ _)
  have h8 : p (if g ≠ Grabber.cursor ∧ a.switchDrawMode = true then
      ({ s7 with
        data := { s7.data with
          drawMode :=
            if s7.data.drawMode = DrawMode.DEFAULT_3D then DrawMode.PROJECTION
            else DrawMode.DEFAULT_3D } } : State)
      else s7) = p s7 := ite_keeps p _ _ _ (hM s7 _)
  exact h8.trans (h7.trans (h6.trans (h5.trans h4)))

theorem intents_of_active (f : Frame) (g : Grabber) (s1 : State) (k : Nat)
    (h : (intents f g s1).currentDrawing = some k) :
    (intents f g s1).timeSinceLastDraw = s1.timeSinceLastDraw := by
  have ht := intentsTail_keeps (fun t => (t.currentDrawing, t.timeSinceLastDraw))
    (fun _ _ => rfl) (fun _ _ => rfl) undoDraw_timer_and_stroke (fun _ _ => rfl) f g
    (intentsHead f g s1)
  have hc := congrArg Prod.fst ht
  have hm := congrArg Prod.snd ht
  simp only at hc hm
  rw [intents_eq] at h ⊢
  rw [hc] at h
  rw [hm]
  unfold intentsHead at h ⊢
  by_cases hs : (f.userinput g).stopDrawing = true
  · rw [if_pos hs, endDraw_currentDrawing] at h
    cases h
  · rw [if_neg hs]
    exact ite_keeps (fun t => t.timeSinceLastDraw) _ _ _ (startDraw_timeSinceLastDraw _ _ _)

theorem handleInput_of_active (f : Frame) (s : State) (k : Nat)
    (h : (_handleInput f s).currentDrawing = some k) :
    (_handleInput f s).timeSinceLastDraw = s.timeSinceLastDraw := by
  rw [handleInput_eq] at h ⊢
  cases hg : holderOf f with
  | none => rfl
  | some g =>
    rw [hg] at h
    have hi := intents_of_active f g (withHolder g s) k h
    have hw : (withHolder g s).timeSinceLastDraw = s.timeSinceLastDraw := by cases g <;> rfl
    exact hi.trans hw

theorem handleInput_drawFrequency (f : Frame) (s : State) :
    (_handleInput f s).data.drawFrequency = s.data.drawFrequency :=
  handleInput_keeps (fun t => t.data.drawFrequency) (fun _ got _ => by cases got <;> rfl)
    (fun _ t => by unfold _endDraw; split <;> rfl) (fun _ _ => rfl) (fun _ _ => rfl)
    (fun got _ => by cases got <;> rfl) (fun _ _ => rfl) (fun _ _ => rfl) f s

theorem tickBeforeDraw_timeSinceLastDraw (f : Frame) (s : State) :
    (tickBeforeDraw f s).timeSinceLastDraw = (_handleInput f s).timeSinceLastDraw := by
  unfold tickBeforeDraw _updatePenTip
  split <;> rfl

theorem tickBeforeDraw_drawFrequency (f : Frame) (s : State) :
    (tickBeforeDraw f s).data.drawFrequency = s.data.drawFrequency := by
  rw [← handleInput_drawFrequency f s]
  unfold tickBeforeDraw _updatePenTip
  split <;> rfl

theorem tick_of_active (f : Frame) (s : State) (k : Nat) (hm : f.isMine = true)
    (h : (tick f s).currentDrawing = some k) :
    (tickBeforeDraw f s).currentDrawing = some k ∧
      (tickBeforeDraw f s).timeSinceLastDraw = s.timeSinceLastDraw ∧
      (tick f s).timeSinceLastDraw =
        jsMod (s.timeSinceLastDraw + f.dt) s.data.drawFrequency := by
  rw [tick_eq, if_pos hm] at h ⊢
  obtain ⟨hk, _, ht⟩ := doDraw_of_active f _ _ k h
  have hk' := hk
  rw [tickBeforeDraw_currentDrawing] at hk'
  have htm : (tickBeforeDraw f s).timeSinceLastDraw = s.timeSinceLastDraw := by
    rw [tickBeforeDraw_timeSinceLastDraw, handleInput_of_active f s k hk']
  refine ⟨hk, htm, ?_⟩
  rw [ht, htm, tickBeforeDraw_drawFrequency]

/-- C4 (counterexample): with interval 5, timer 0 and the tip 0.02 from the
sink's last point, one tick of `dt = 16` emits a point, keeps the stroke
active and leaves the timer at 1, while timer + dt minus the interval is 11. -/
theorem C4_timer_wraps_not_minus_one_interval :
    (draws (tick (heldFrame ⟨0, 0, 2 / 100⟩ ⟨0, 0, 0⟩ 16) penHeld).calls).length =
        (draws penHeld.calls).length + 1 ∧
      (tick (heldFrame ⟨0, 0, 2 / 100⟩ ⟨0, 0, 0⟩ 16) penHeld).currentDrawing = some 0 ∧
      (tick (heldFrame ⟨0, 0, 2 / 100⟩ ⟨0, 0, 0⟩ 16) penHeld).timeSinceLastDraw = 1 ∧
      penHeld.timeSinceLastDraw + (heldFrame ⟨0, 0, 2 / 100⟩ ⟨0, 0, 0⟩ 16).dt -
        penHeld.data.drawFrequency = 11 := by
  have hm : jsMod 16 5 = 1 := by
    rw [jsMod_of_bounds 16 5 3 (by norm_num) (by norm_num) (by norm_num)]
    norm_num
  have hi : tickIntersection (heldFrame ⟨0, 0, 2 / 100⟩ ⟨0, 0, 0⟩ 16) penHeld = none := rfl
  have hb : tickBeforeDraw (heldFrame ⟨0, 0, 2 / 100⟩ ⟨0, 0, 0⟩ 16) penHeld = penAtTip := rfl
  have hc : (tick (heldFrame ⟨0, 0, 2 / 100⟩ ⟨0, 0, 0⟩ 16) penHeld).currentDrawing
      = some 0 := by
    rw [tick_of_mine _ _ rfl, hi, hb]
    simp [doDraw_eq, targetsStage_currentDrawing, releaseStage, sampleStage_currentDrawing,
      sampleStage_grabberId, directionStage_currentDrawing, directionStage_grabberId,
      breakStage, jumpBreak, objectOf, penAtTip, penHeld, penDrawing, pen0, init, _startDraw]
  refine ⟨?_, hc, ?_, ?_⟩
  · rw [tick_of_mine _ _ rfl, hi, hb, doDraw_draws, breakStage_of_not_jump _ _ _ (by decide)]
    norm_num [sampled, sampleDue, directionStage_currentDrawing, directionStage_data,
      directionStage_timeSinceLastDraw, directionStage_worldPosition, penAtTip, penHeld,
      penDrawing, pen0, init, _startDraw, defaultData, heldFrame, Vec3.distanceToGe,
      Vec3.distanceToSquared, draws, Call.isDraw]
  · rw [(tick_of_active _ _ 0 rfl hc).2.2]
    norm_num [penHeld, penDrawing, pen0, init, _startDraw, defaultData, heldFrame, hm]
  · norm_num [penHeld, penDrawing, pen0, init, _startDraw, defaultData, heldFrame]

/-- C4 (amended): on every tick that emits a `draw` call and ends with the
stroke active, with a positive `drawFrequency`, the new accumulated time is
`(timeSinceLastDraw + dt) % drawFrequency`: every whole interval contained in
the elapsed time is dropped and the remainder is carried forward.  The elapsed
time is at least one interval, and the new time is the elapsed time minus
exactly one interval when the elapsed time is below two intervals. -/
theorem C4_timer_after_emission (f : Frame) (s : State)
    (hfreq : 0 < s.data.drawFrequency)
    (hact : (tick f s).currentDrawing.isSome = true)
    (hdraw : draws (tick f s).calls ≠ draws s.calls) :
    (tick f s).timeSinceLastDraw =
        jsMod (s.timeSinceLastDraw + f.dt) s.data.drawFrequency ∧
      s.data.drawFrequency ≤ s.timeSinceLastDraw + f.dt ∧
      (s.timeSinceLastDraw + f.dt < 2 * s.data.drawFrequency →
        (tick f s).timeSinceLastDraw =
          s.timeSinceLastDraw + f.dt - s.data.drawFrequency) := by
  have hm : f.isMine = true := by
    by_contra hn
    apply hdraw
    rw [tick_eq, if_neg hn]
  obtain ⟨k, hk⟩ := Option.isSome_iff_exists.mp hact
  obtain ⟨hkb, htm, ht⟩ := tick_of_active f s k hm hk
  have hge : s.data.drawFrequency ≤ s.timeSinceLastDraw + f.dt := by
    by_contra hlt
    apply hdraw
    apply tick_draws_of_blocked
    unfold samplingBlockedAt
    rw [hkb]
    left
    rw [htm, tickBeforeDraw_drawFrequency]
    exact not_le.mp hlt
  refine ⟨ht, hge, ?_⟩
  intro h2
  rw [ht, jsMod_of_bounds _ _ 1 hfreq (by simpa using hge) (by norm_num; linarith)]
  simp

/-- C4 (witness): interval 5, the timer at 3 after a first tick of `dt = 3`,
the tip 0.02 from the last point: the second tick of `dt = 3` emits one point
and leaves the timer at 1. -/
theorem C4_timer_after_emission_witness :
    penTimer3.timeSinceLastDraw = 3 ∧
      (draws (tick (heldFrame ⟨0, 0, 2 / 100⟩ ⟨0, 0, 0⟩ 3) penTimer3).calls).length =
        (draws penTimer3.calls).length + 1 ∧
      (tick (heldFrame ⟨0, 0, 2 / 100⟩ ⟨0, 0, 0⟩ 3) penTimer3).timeSinceLastDraw = 1 := by
  have hi : tickIntersection (heldFrame ⟨0, 0, 2 / 100⟩ ⟨0, 0, 0⟩ 3) penTimer3 = none := rfl
  have hb : tickBeforeDraw (heldFrame ⟨0, 0, 2 / 100⟩ ⟨0, 0, 0⟩ 3) penTimer3 = penSampling := rfl
  have hc : (tick (heldFrame ⟨0, 0, 2 / 100⟩ ⟨0, 0, 0⟩ 3) penTimer3).currentDrawing
      = some 0 := by
    rw [tick_of_mine _ _ rfl, hi, hb]
    simp [doDraw_eq, targetsStage_currentDrawing, releaseStage, sampleStage_currentDrawing,
      sampleStage_grabberId, directionStage_currentDrawing, directionStage_grabberId,
      breakStage, jumpBreak, objectOf, penSampling, penHeld, penDrawing, pen0, init, _startDraw]
  have hl : (draws (tick (heldFrame ⟨0, 0, 2 / 100⟩ ⟨0, 0, 0⟩ 3) penTimer3).calls).length =
      (draws penTimer3.calls).length + 1 := by
    rw [tick_of_mine _ _ rfl, hi, hb, doDraw_draws, breakStage_of_not_jump _ _ _ (by decide)]
    norm_num [sampled, sampleDue, directionStage_currentDrawing, directionStage_data,
      directionStage_timeSinceLastDraw, directionStage_worldPosition, penSampling, penTimer3,
      penHeld, penDrawing, pen0, init, _startDraw, defaultData, heldFrame, Vec3.distanceToGe,
      Vec3.distanceToSquared, draws, Call.isDraw]
  have hd : draws (tick (heldFrame ⟨0, 0, 2 / 100⟩ ⟨0, 0, 0⟩ 3) penTimer3).calls ≠
      draws penTimer3.calls := by
    intro he
    rw [he] at hl
    omega
  have hf : 0 < penTimer3.data.drawFrequency := by
    norm_num [penTimer3, penHeld, penDrawing, pen0, init, _startDraw, defaultData]
  have h := (C4_timer_after_emission (heldFrame ⟨0, 0, 2 / 100⟩ ⟨0, 0, 0⟩ 3) penTimer3
    hf (by rw [hc]; rfl) hd).2.2
  refine ⟨rfl, hl, ?_⟩
  rw [h]
  all_goals
    norm_num [penTimer3, penHeld, penDrawing, pen0, init, _startDraw, defaultData, heldFrame]

/-! ## C5: the jump break -/

theorem almostEquals_self (epsilon : ℚ) (h : 0 < epsilon) (v : Vec3) :
    almostEquals epsilon v v = true := by
  simp [almostEquals, h]

theorem directionStage_of_almostEquals (f : Frame) (s : State)
    (h : almostEquals (5 / 1000) s.worldPosition s.lastPosition = true) :
    directionStage f s = s := by
  unfold directionStage
  rw [if_pos h]

theorem directionStage_of_same (f : Frame) (s : State) (h : s.worldPosition = s.lastPosition) :
    directionStage f s = s := by
  apply directionStage_of_almostEquals
  rw [h]
  exact almostEquals_self _ (by norm_num) _

theorem sampleStage_of_idle (f : Frame) (s : State) (h : s.currentDrawing = none) :
    sampleStage f s = s := by
  unfold sampleStage
  rw [h]

theorem releaseStage_of_idle (f : Frame) (s : State) (h : s.currentDrawing = none) :
    releaseStage f s = s := by
  unfold releaseStage
  rw [if_neg]
  simp [h]

theorem startDraw_direction (c : Ctx) (got : Option Nat) (s : State) :
    ((_startDraw c got s).direction, (_startDraw c got s).lastPosition) =
      (s.direction, s.lastPosition) := by
  cases got <;> rfl

theorem endDraw_direction (c : Ctx) (s : State) :
    ((_endDraw c s).direction, (_endDraw c s).lastPosition) = (s.direction, s.lastPosition) := by
  unfold _endDraw
  split <;> rfl

theorem undoDraw_direction (got : Option Nat) (s : State) :
    ((_undoDraw got s).direction, (_undoDraw got s).lastPosition) =
      (s.direction, s.lastPosition) := by
  cases got <;> rfl

theorem handleInput_direction (f : Frame) (s : State) :
    ((_handleInput f s).direction, (_handleInput f s).lastPosition) =
      (s.direction, s.lastPosition) :=
  handleInput_keeps (fun t => (t.direction, t.lastPosition)) startDraw_direction
    endDraw_direction (fun _ _ => rfl) (fun _ _ => rfl) undoDraw_direction (fun _ _ => rfl)
    (fun _ _ => rfl) f s

theorem tickBeforeDraw_direction (f : Frame) (s : State) :
    ((tickBeforeDraw f s).direction, (tickBeforeDraw f s).lastPosition) =
      (s.direction, s.lastPosition) := by
  rw [← handleInput_direction f s]
  unfold tickBeforeDraw _updatePenTip
  split <;> rfl

theorem sampleStage_direction (f : Frame) (t : State) :
    ((sampleStage f t).direction, (sampleStage f t).lastPosition) =
      (t.direction, t.lastPosition) := by
  unfold sampleStage
  split
  · split <;> rfl
  · rfl

theorem releaseStage_direction (f : Frame) (t : State) :
    ((releaseStage f t).direction, (releaseStage f t).lastPosition) =
      (t.direction, t.lastPosition) := by
  unfold releaseStage
  split
  · exact endDraw_direction _ _
  · rfl

theorem targetsStage_direction (f : Frame) (t : State) :
    ((targetsStage f t).direction, (targetsStage f t).lastPosition) =
      (t.direction, t.lastPosition) := by
  unfold targetsStage
  split <;> rfl

theorem doDraw_direction_of_almostEquals (f : Frame) (i : Option Intersection) (s : State)
    (h : almostEquals (5 / 1000) s.worldPosition s.lastPosition = true) :
    ((_doDraw f i s).direction, (_doDraw f i s).lastPosition) =
      (s.direction, s.lastPosition) := by
  rw [doDraw_eq, targetsStage_direction, releaseStage_direction, sampleStage_direction]
  cases hj : jumpBreak i s
  · rw [breakStage_of_not_jump f i s hj, directionStage_of_almostEquals f (recordHit i s) h]
    rfl
  · rw [breakStage_of_jump f i s hj]
    have hw : (_endDraw f.ctx { s with worldPosition := s.lastPosition }).worldPosition =
        (_endDraw f.ctx { s with worldPosition := s.lastPosition }).lastPosition := by
      unfold _endDraw
      split <;> rfl
    rw [directionStage_of_same f (recordHit i _) hw]
    exact endDraw_direction f.ctx { s with worldPosition := s.lastPosition }

theorem doDraw_jump_break (f : Frame) (s : State) (k A : Nat) (hit : Intersection)
    (hk : s.currentDrawing = some k) (hA : s.lastIntersectedObject = ObjRef.obj A)
    (hB : hit.object ≠ A) (hd : |hit.distance - s.lastIntersectionDistance| > 1) :
    (_doDraw f (some hit) s).currentDrawing = none ∧
      (_doDraw f (some hit) s).calls =
        s.calls ++
          [Call.endDraw k s.lastPosition s.direction
            (_getNormal f.ctx s.lastPosition s.direction), Call.returnDrawing] ∧
      (_doDraw f (some hit) s).timeSinceLastDraw = 0 := by
  have hj : jumpBreak (some hit) s = true := by
    simp [jumpBreak, hk, hA, objectOf, MAX_DISTANCE_BETWEEN_SURFACES, hd]
    exact fun h => hB h.symm
  have he : _endDraw f.ctx { s with worldPosition := s.lastPosition } =
      { s with
        worldPosition := s.lastPosition
        timeSinceLastDraw := 0
        normal := _getNormal f.ctx s.lastPosition s.direction
        calls := s.calls ++
          [Call.endDraw k s.lastPosition s.direction
            (_getNormal f.ctx s.lastPosition s.direction), Call.returnDrawing]
        currentDrawing := none } := by
    unfold _endDraw
    simp [hk]
  rw [doDraw_eq, breakStage_of_jump f _ s hj, he]
  rw [directionStage_of_same f _ rfl, sampleStage_of_idle f _ rfl, releaseStage_of_idle f _ rfl]
  unfold targetsStage
  split <;> exact ⟨rfl, rfl, rfl⟩

theorem endDraw_lastHit (c : Ctx) (s : State) :
    ((_endDraw c s).lastIntersectedObject, (_endDraw c s).lastIntersectionDistance) =
      (s.lastIntersectedObject, s.lastIntersectionDistance) := by
  unfold _endDraw
  split <;> rfl

theorem handleInput_lastHit (f : Frame) (s : State) :
    ((_handleInput f s).lastIntersectedObject, (_handleInput f s).lastIntersectionDistance) =
      (s.lastIntersectedObject, s.lastIntersectionDistance) :=
  handleInput_keeps (fun t => (t.lastIntersectedObject, t.lastIntersectionDistance))
    (fun _ got _ => by cases got <;> rfl) endDraw_lastHit (fun _ _ => rfl) (fun _ _ => rfl)
    (fun got _ => by cases got <;> rfl) (fun _ _ => rfl) (fun _ _ => rfl) f s

theorem tickBeforeDraw_lastHit (f : Frame) (s : State) :
    ((tickBeforeDraw f s).lastIntersectedObject, (tickBeforeDraw f s).lastIntersectionDistance) =
      (s.lastIntersectedObject, s.lastIntersectionDistance) := by
  rw [← handleInput_lastHit f s]
  unfold tickBeforeDraw _updatePenTip
  split <;> rfl

theorem doDraw_lastHit (f : Frame) (i : Option Intersection) (s : State) :
    ((_doDraw f i s).lastIntersectedObject, (_doDraw f i s).lastIntersectionDistance) =
      (objectOf i, distanceOf i) := by
  have ht : ∀ t : State, ((targetsStage f t).lastIntersectedObject,
      (targetsStage f t).lastIntersectionDistance) =
      (t.lastIntersectedObject, t.lastIntersectionDistance) := by
    intro t
    unfold targetsStage
    split <;> rfl
  have hr : ∀ t : State, ((releaseStage f t).lastIntersectedObject,
      (releaseStage f t).lastIntersectionDistance) =
      (t.lastIntersectedObject, t.lastIntersectionDistance) := by
    intro t
    unfold releaseStage
    split
    · exact endDraw_lastHit _ _
    · rfl
  have hs : ∀ t : State, ((sampleStage f t).lastIntersectedObject,
      (sampleStage f t).lastIntersectionDistance) =
      (t.lastIntersectedObject, t.lastIntersectionDistance) := by
    intro t
    unfold sampleStage
    split
    · split <;> rfl
    · rfl
  have hd : ∀ t : State, ((directionStage f t).lastIntersectedObject,
      (directionStage f t).lastIntersectionDistance) =
      (t.lastIntersectedObject, t.lastIntersectionDistance) := by
    intro t
    unfold directionStage
    split <;> rfl
  rw [doDraw_eq, ht, hr, hs, hd]
  cases hj : jumpBreak i s
  · rw [breakStage_of_not_jump f i s hj]
    rfl
  · rw [breakStage_of_jump f i s hj]
    rfl

theorem tick_lastHit (f : Frame) (s : State) (hm : f.isMine = true) :
    (tick f s).lastIntersectedObject = objectOf (tickIntersection f s) ∧
      (tick f s).lastIntersectionDistance = distanceOf (tickIntersection f s) := by
  rw [tick_of_mine f s hm]
  have h := doDraw_lastHit f (tickIntersection f s) (tickBeforeDraw f s)
  exact ⟨congrArg Prod.fst h, congrArg Prod.snd h⟩

/-- C5: when `_doDraw` is entered with a stroke active on sink `k`, the
previous tick's hit recorded on surface `A` at distance
`lastIntersectionDistance`, and this tick's hit is on another surface at a
distance differing from it by more than 1, then `_doDraw` issues exactly an
`endDraw` to the sink (at the last sampled position) followed by a
`returnDrawing`, and leaves the pen idle with the timer at zero, whatever the
holder and the input.  In terms of ticks: when an owned tick hits surface `A`
at distance `d0` and the next owned tick hits another surface at a distance
more than 1 away from `d0`, with a stroke active on sink `k` when its
`_doDraw` is entered, the second tick ends with the pen idle, having issued
the `endDraw` and the `returnDrawing`. -/
theorem C5_jump_break_ends_stroke (f : Frame) (s : State) (k A : Nat) (hit : Intersection)
    (f1 f2 : Frame) (s0 : State) (j : Nat) (hitA hitB : Intersection)
    (hk : s.currentDrawing = some k) (hA : s.lastIntersectedObject = ObjRef.obj A)
    (hB : hit.object ≠ A) (hd : |hit.distance - s.lastIntersectionDistance| > 1)
    (hm1 : f1.isMine = true) (hm2 : f2.isMine = true)
    (h1 : tickIntersection f1 s0 = some hitA)
    (h2 : tickIntersection f2 (tick f1 s0) = some hitB)
    (hj : (tickBeforeDraw f2 (tick f1 s0)).currentDrawing = some j)
    (hne : hitB.object ≠ hitA.object) (hgap : |hitB.distance - hitA.distance| > 1) :
    ((_doDraw f (some hit) s).currentDrawing = none ∧
        (_doDraw f (some hit) s).calls =
          s.calls ++
            [Call.endDraw k s.lastPosition s.direction
              (_getNormal f.ctx s.lastPosition s.direction), Call.returnDrawing] ∧
        (_doDraw f (some hit) s).timeSinceLastDraw = 0) ∧
      ((tick f2 (tick f1 s0)).currentDrawing = none ∧
        (tick f2 (tick f1 s0)).calls =
          (tickBeforeDraw f2 (tick f1 s0)).calls ++
            [Call.endDraw j (tick f1 s0).lastPosition (tick f1 s0).direction
              (_getNormal f2.ctx (tick f1 s0).lastPosition (tick f1 s0).direction),
              Call.returnDrawing]) := by
  refine ⟨doDraw_jump_break f s k A hit hk hA hB hd, ?_⟩
  obtain ⟨ho, hdist⟩ := tick_lastHit f1 s0 hm1
  rw [h1] at ho hdist
  have hl := tickBeforeDraw_lastHit f2 (tick f1 s0)
  have hpo : (tickBeforeDraw f2 (tick f1 s0)).lastIntersectedObject = ObjRef.obj hitA.object :=
    (congrArg Prod.fst hl).trans ho
  have hpd : (tickBeforeDraw f2 (tick f1 s0)).lastIntersectionDistance = hitA.distance :=
    (congrArg Prod.snd hl).trans hdist
  have hdir := tickBeforeDraw_direction f2 (tick f1 s0)
  have hd1 : (tickBeforeDraw f2 (tick f1 s0)).direction = (tick f1 s0).direction :=
    congrArg Prod.fst hdir
  have hd2 : (tickBeforeDraw f2 (tick f1 s0)).lastPosition = (tick f1 s0).lastPosition :=
    congrArg Prod.snd hdir
  have h := doDraw_jump_break f2 (tickBeforeDraw f2 (tick f1 s0)) j hitA.object hitB hj hpo hne
    (by rw [hpd]; exact hgap)
  rw [tick_of_mine f2 _ hm2, h2]
  rw [hd1, hd2] at h
  exact ⟨h.1, h.2.1⟩

/-- C5 (witness): `penOnSurface` holds sink `0` in the right hand and last hit
surface `1` at distance 2; a hit on surface `2` at distance 4 ends the stroke.
From `penProjecting`, a tick hitting surface `1` at distance 1/2 followed by a
tick hitting surface `2` at distance 2 ends the stroke on the second tick. -/
theorem C5_jump_break_ends_stroke_witness :
    (penOnSurface.currentDrawing = some 0 ∧
        penOnSurface.lastIntersectedObject = ObjRef.obj 1 ∧
        penOnSurface.grabberId = some Grabber.playerRightController) ∧
      (_doDraw (heldFrame ⟨0, 0, 5⟩ ⟨0, 0, 0⟩ 3) (some ⟨⟨0, 0, 5⟩, 4, 2⟩)
        penOnSurface).currentDrawing = none ∧
      (tick (hitFrame ⟨⟨0, 0, 5⟩, 1 / 2, 1⟩ 3) penProjecting).currentDrawing = some 0 ∧
      (tick (hitFrame ⟨⟨0, 0, 9⟩, 2, 2⟩ 3)
        (tick (hitFrame ⟨⟨0, 0, 5⟩, 1 / 2, 1⟩ 3) penProjecting)).currentDrawing = none := by
  have hm : jsMod 3 5 = 3 := by
    rw [jsMod_of_bounds 3 5 0 (by norm_num) (by norm_num) (by norm_num)]
    norm_num
  have e1 : tickIntersection (hitFrame ⟨⟨0, 0, 5⟩, 1 / 2, 1⟩ 3) penProjecting =
      some ⟨⟨0, 0, 5⟩, 1 / 2, 1⟩ := rfl
  have t1 : tick (hitFrame ⟨⟨0, 0, 5⟩, 1 / 2, 1⟩ 3) penProjecting =
      { penProjecting with
        worldPosition := ⟨0, 0, 5⟩
        lastPosition := ⟨0, 0, 5⟩
        direction := ⟨0, 0, 1⟩
        timeSinceLastDraw := 3
        lastIntersectedObject := ObjRef.obj 1
        lastIntersectionDistance := 1 / 2
        dirty := false } := by
    norm_num [tick, _handleInput, hitFrame, heldFrame, penProjecting, penHeld, penDrawing, pen0,
      init, noActions, _getIntersection, _updatePenTip, _doDraw, jumpBreak, almostEquals,
      defaultData, _endDraw, _startDraw, abs_lt, objectOf, distanceOf, sampleDue, hm, ctx0,
      normalizeAxis, Vec3.subVectors, MAX_DISTANCE_BETWEEN_SURFACES, abs_of_pos]
    decide
  have e2 : tickIntersection (hitFrame ⟨⟨0, 0, 9⟩, 2, 2⟩ 3)
      (tick (hitFrame ⟨⟨0, 0, 5⟩, 1 / 2, 1⟩ 3) penProjecting) = some ⟨⟨0, 0, 9⟩, 2, 2⟩ := by
    rw [t1]
    rfl
  have e3 : (tickBeforeDraw (hitFrame ⟨⟨0, 0, 9⟩, 2, 2⟩ 3)
      (tick (hitFrame ⟨⟨0, 0, 5⟩, 1 / 2, 1⟩ 3) penProjecting)).currentDrawing = some 0 := by
    rw [t1]
    rfl
  have h := C5_jump_break_ends_stroke (heldFrame ⟨0, 0, 5⟩ ⟨0, 0, 0⟩ 3) penOnSurface 0 1
    ⟨⟨0, 0, 5⟩, 4, 2⟩ (hitFrame ⟨⟨0, 0, 5⟩, 1 / 2, 1⟩ 3) (hitFrame ⟨⟨0, 0, 9⟩, 2, 2⟩ 3)
    penProjecting 0 ⟨⟨0, 0, 5⟩, 1 / 2, 1⟩ ⟨⟨0, 0, 9⟩, 2, 2⟩ rfl rfl (by decide)
    (by norm_num [penOnSurface, abs_of_pos]) rfl rfl e1 e2 e3 (by decide)
    (by norm_num [abs_of_pos])
  refine ⟨⟨rfl, rfl, rfl⟩, h.1.1, ?_, h.2.1⟩
  rw [t1]
  rfl

/-! ## C6: direction stability -/

/-- C6 (counterexample): from `pen0` (direction `(1, 0, 0)`, last position
the origin), a tick with the tip at `(0, 0.004, 0)` and a next tick with the
tip at `(0, 0.008, 0)`: between the two ticks the position changes by less
than 0.005 on every axis, yet the direction stored after the second tick is
`(0, 1, 0)` while after the first tick it is `(1, 0, 0)`. -/
theorem C6_direction_changes_on_slow_drift :
    (tick (heldFrame ⟨0, 4 / 1000, 0⟩ ⟨0, 0, 0⟩ 3) pen0).worldPosition = ⟨0, 4 / 1000, 0⟩ ∧
      (tick (heldFrame ⟨0, 8 / 1000, 0⟩ ⟨0, 0, 0⟩ 3)
        (tick (heldFrame ⟨0, 4 / 1000, 0⟩ ⟨0, 0, 0⟩ 3) pen0)).worldPosition =
          ⟨0, 8 / 1000, 0⟩ ∧
      almostEquals (5 / 1000) ⟨0, 8 / 1000, 0⟩ ⟨0, 4 / 1000, 0⟩ = true ∧
      (tick (heldFrame ⟨0, 4 / 1000, 0⟩ ⟨0, 0, 0⟩ 3) pen0).direction = ⟨1, 0, 0⟩ ∧
      (tick (heldFrame ⟨0, 8 / 1000, 0⟩ ⟨0, 0, 0⟩ 3)
        (tick (heldFrame ⟨0, 4 / 1000, 0⟩ ⟨0, 0, 0⟩ 3) pen0)).direction = ⟨0, 1, 0⟩ := by
  have h1 : tick (heldFrame ⟨0, 4 / 1000, 0⟩ ⟨0, 0, 0⟩ 3) pen0 =
      { pen0 with
        grabberId := some Grabber.playerRightController
        worldPosition := ⟨0, 4 / 1000, 0⟩
        lastIntersectedObject := ObjRef.null
        dirty := false } := by
    norm_num [tick, _handleInput, heldFrame, pen0, init, noActions, _getIntersection,
      _updatePenTip, _doDraw, jumpBreak, almostEquals, defaultData, _endDraw, abs_lt, objectOf,
      distanceOf]
  rw [h1]
  refine ⟨rfl, ?_, ?_, rfl, ?_⟩
  · norm_num [tick, _handleInput, heldFrame, pen0, init, noActions, _getIntersection,
      _updatePenTip, _doDraw, jumpBreak, almostEquals, defaultData, _endDraw, abs_lt, objectOf,
      distanceOf]
  · norm_num [almostEquals, abs_lt]
  · norm_num [tick, _handleInput, heldFrame, pen0, init, noActions, _getIntersection,
      _updatePenTip, _doDraw, jumpBreak, almostEquals, defaultData, _endDraw, abs_lt, objectOf,
      distanceOf, ctx0, normalizeAxis, Vec3.subVectors]
    rw [abs_of_pos (by norm_num)]
    norm_num

/-- C6 (amended): on every tick, if the pointer's world position for that tick
differs from the stored `lastPosition` (the position at which the direction
was last recomputed, not the previous tick's position) by less than 0.005 on
every axis, then the stored direction and `lastPosition` after the tick equal
those before it. -/
theorem C6_direction_stable_near_lastPosition (f : Frame) (s : State)
    (h : almostEquals (5 / 1000) (tickBeforeDraw f s).worldPosition s.lastPosition = true) :
    (tick f s).direction = s.direction ∧ (tick f s).lastPosition = s.lastPosition := by
  have hp := tickBeforeDraw_direction f s
  have hl : (tickBeforeDraw f s).lastPosition = s.lastPosition := congrArg Prod.snd hp
  rw [← hl] at h
  have hd := doDraw_direction_of_almostEquals f (tickIntersection f s) (tickBeforeDraw f s) h
  rw [tick_eq]
  split
  · exact ⟨(congrArg Prod.fst hd).trans (congrArg Prod.fst hp),
      (congrArg Prod.snd hd).trans hl⟩
  · exact ⟨rfl, rfl⟩

/-- C6 (witness): from `pen0` a tick with the tip at `(0, 0.004, 0)` keeps the
direction `(1, 0, 0)`. -/
theorem C6_direction_stable_near_lastPosition_witness :
    almostEquals (5 / 1000) (tickBeforeDraw (heldFrame ⟨0, 4 / 1000, 0⟩ ⟨0, 0, 0⟩ 3) pen0).worldPosition
        pen0.lastPosition = true ∧
      (tick (heldFrame ⟨0, 4 / 1000, 0⟩ ⟨0, 0, 0⟩ 3) pen0).direction = ⟨1, 0, 0⟩ := by
  have h : almostEquals (5 / 1000)
      (tickBeforeDraw (heldFrame ⟨0, 4 / 1000, 0⟩ ⟨0, 0, 0⟩ 3) pen0).worldPosition
      pen0.lastPosition = true := by
    norm_num [tickBeforeDraw, tickIntersection, _handleInput, heldFrame, pen0, init, noActions,
      _getIntersection, _updatePenTip, almostEquals, defaultData, abs_lt]
  exact ⟨h, (C6_direction_stable_near_lastPosition _ _ h).1⟩

/-! ## C7, C8: colour cycling -/

theorem changeColor_colorIndex (m : ℤ) (s : State)
    (hN : 0 < (s.data.availableColors.length : ℤ))
    (hnn : 0 ≤ s.colorIndex + m + (s.data.availableColors.length : ℤ)) :
    (_changeColor m s).colorIndex = (s.colorIndex + m) % (s.data.availableColors.length : ℤ) := by
  show Int.tmod (s.colorIndex + m + (s.data.availableColors.length : ℤ))
    (s.data.availableColors.length : ℤ) = _
  rw [Int.tmod_eq_emod hnn (le_of_lt hN), Int.add_emod_self]

theorem changeColor_color (m : ℤ) (s : State) :
    (_changeColor m s).data.color =
      colorAt s.data.availableColors (_changeColor m s).colorIndex :=
  rfl

theorem changeColor_availableColors (m : ℤ) (s : State) :
    (_changeColor m s).data.availableColors = s.data.availableColors :=
  rfl

theorem changeColor_iterate (s : State) (k : ℕ) (h0 : 0 ≤ s.colorIndex)
    (h1 : s.colorIndex < (s.data.availableColors.length : ℤ))
    (hc : s.data.color = colorAt s.data.availableColors s.colorIndex) :
    ((_changeColor 1)^[k] s).data.availableColors = s.data.availableColors ∧
      ((_changeColor 1)^[k] s).colorIndex =
        (s.colorIndex + (k : ℤ)) % (s.data.availableColors.length : ℤ) ∧
      ((_changeColor 1)^[k] s).data.color =
        colorAt s.data.availableColors
          ((s.colorIndex + (k : ℤ)) % (s.data.availableColors.length : ℤ)) := by
  have hN : 0 < (s.data.availableColors.length : ℤ) := lt_of_le_of_lt h0 h1
  induction k with
  | zero =>
    have he : (s.colorIndex + ((0 : ℕ) : ℤ)) % (s.data.availableColors.length : ℤ) =
        s.colorIndex := by
      rw [Nat.cast_zero, add_zero, Int.emod_eq_of_lt h0 h1]
    rw [he]
    exact ⟨rfl, rfl, hc⟩
  | succ k ih =>
    obtain ⟨ha, hi, _⟩ := ih
    rw [Function.iterate_succ_apply']
    have hidx : (_changeColor 1 ((_changeColor 1)^[k] s)).colorIndex =
        (s.colorIndex + ((k + 1 : ℕ) : ℤ)) % (s.data.availableColors.length : ℤ) := by
      rw [changeColor_colorIndex 1 _ (by rw [ha]; exact hN)
        (by
          rw [ha, hi]
          have := Int.emod_nonneg (s.colorIndex + (k : ℤ)) (ne_of_gt hN)
          omega)]
      rw [ha, hi, Int.emod_add_emod]
      push_cast
      rw [add_assoc]
    refine ⟨by rw [changeColor_availableColors, ha], hidx, ?_⟩
    rw [changeColor_color, ha, hidx]

/-- C7: for a pen whose colour index `i` lies in `[0, N)`, `N` the palette
size (so `N >= 1`), and whose colour is `palette[i]`: after `k` applications
of `_changeColor(1)` the colour index is `(i + k) mod N` and the colour is the
palette entry at that index; after `N` applications the index is `i` again
and the colour is the original colour. -/
theorem C7_next_color_cyclic (s : State) (k : ℕ) (h0 : 0 ≤ s.colorIndex)
    (h1 : s.colorIndex < (s.data.availableColors.length : ℤ))
    (hc : s.data.color = colorAt s.data.availableColors s.colorIndex) :
    ((_changeColor 1)^[k] s).colorIndex =
        (s.colorIndex + (k : ℤ)) % (s.data.availableColors.length : ℤ) ∧
      ((_changeColor 1)^[k] s).data.color =
        colorAt s.data.availableColors
          ((s.colorIndex + (k : ℤ)) % (s.data.availableColors.length : ℤ)) ∧
      ((_changeColor 1)^[s.data.availableColors.length] s).colorIndex = s.colorIndex ∧
      ((_changeColor 1)^[s.data.availableColors.length] s).data.color = s.data.color := by
  obtain ⟨_, hk1, hk2⟩ := changeColor_iterate s k h0 h1 hc
  obtain ⟨_, hn1, hn2⟩ := changeColor_iterate s s.data.availableColors.length h0 h1 hc
  rw [Int.add_emod_self, Int.emod_eq_of_lt h0 h1] at hn1 hn2
  exact ⟨hk1, hk2, hn1, hn2.trans hc.symm⟩

/-- C7 (witness): palette of size 3, index 0: two next-color give index 2, a
third gives index 0 and the first colour. -/
theorem C7_next_color_cyclic_witness :
    ((_changeColor 1)^[2] penThreeColors).colorIndex = 2 ∧
      ((_changeColor 1)^[3] penThreeColors).colorIndex = 0 ∧
      ((_changeColor 1)^[3] penThreeColors).data.color = some "#FF0033" := by
  have h := C7_next_color_cyclic penThreeColors 2 (by decide) (by decide) rfl
  exact ⟨h.1, h.2.2.1, h.2.2.2⟩

/-- C8: for a pen whose colour index `i` lies in `[0, N)`, `N` the palette
size, and whose colour is `palette[i]`: `_changeColor(1)` followed by
`_changeColor(-1)`, and `_changeColor(-1)` followed by `_changeColor(1)`, both
leave the colour index equal to `i` and the colour equal to the original
colour, and after each single application the index is in `[0, N)`. -/
theorem C8_prev_color_inverts_next (s : State) (h0 : 0 ≤ s.colorIndex)
    (h1 : s.colorIndex < (s.data.availableColors.length : ℤ))
    (hc : s.data.color = colorAt s.data.availableColors s.colorIndex) :
    (_changeColor (-1) (_changeColor 1 s)).colorIndex = s.colorIndex ∧
      (_changeColor (-1) (_changeColor 1 s)).data.color = s.data.color ∧
      (_changeColor 1 (_changeColor (-1) s)).colorIndex = s.colorIndex ∧
      (_changeColor 1 (_changeColor (-1) s)).data.color = s.data.color ∧
      (0 ≤ (_changeColor 1 s).colorIndex ∧
        (_changeColor 1 s).colorIndex < (s.data.availableColors.length : ℤ)) ∧
      (0 ≤ (_changeColor (-1) s).colorIndex ∧
        (_changeColor (-1) s).colorIndex < (s.data.availableColors.length : ℤ)) := by
  have hN : 0 < (s.data.availableColors.length : ℤ) := lt_of_le_of_lt h0 h1
  have hn : (_changeColor 1 s).colorIndex =
      (s.colorIndex + 1) % (s.data.availableColors.length : ℤ) :=
    changeColor_colorIndex 1 s hN (by omega)
  have hp : (_changeColor (-1) s).colorIndex =
      (s.colorIndex + -1) % (s.data.availableColors.length : ℤ) :=
    changeColor_colorIndex (-1) s hN (by omega)
  have hn0 := Int.emod_nonneg (s.colorIndex + 1) (ne_of_gt hN)
  have hn1 := Int.emod_lt_of_pos (s.colorIndex + 1) hN
  have hp0 := Int.emod_nonneg (s.colorIndex + -1) (ne_of_gt hN)
  have hp1 := Int.emod_lt_of_pos (s.colorIndex + -1) hN
  have hnp : (_changeColor (-1) (_changeColor 1 s)).colorIndex = s.colorIndex := by
    rw [changeColor_colorIndex (-1) _ (by rw [changeColor_availableColors]; exact hN)
      (by rw [changeColor_availableColors, hn]; omega)]
    rw [changeColor_availableColors, hn, Int.emod_add_emod]
    rw [show s.colorIndex + 1 + -1 = s.colorIndex by ring]
    exact Int.emod_eq_of_lt h0 h1
  have hpn : (_changeColor 1 (_changeColor (-1) s)).colorIndex = s.colorIndex := by
    rw [changeColor_colorIndex 1 _ (by rw [changeColor_availableColors]; exact hN)
      (by rw [changeColor_availableColors, hp]; omega)]
    rw [changeColor_availableColors, hp, Int.emod_add_emod]
    rw [show s.colorIndex + -1 + 1 = s.colorIndex by ring]
    exact Int.emod_eq_of_lt h0 h1
  refine ⟨hnp, ?_, hpn, ?_, ⟨hn ▸ hn0, hn ▸ hn1⟩, ⟨hp ▸ hp0, hp ▸ hp1⟩⟩
  · rw [changeColor_color, hnp]
    exact hc.symm
  · rw [changeColor_color, hpn]
    exact hc.symm

/-- C8 (witness): palette of size 3 at index 0, the wrap-around case: next
then previous, and previous then next, return to index 0. -/
theorem C8_prev_color_inverts_next_witness :
    (_changeColor (-1) (_changeColor 1 penThreeColors)).colorIndex = 0 ∧
      (_changeColor 1 (_changeColor (-1) penThreeColors)).colorIndex = 0 ∧
      (_changeColor 1 (_changeColor (-1) penThreeColors)).data.color = some "#FF0033" := by
  have h := C8_prev_color_inverts_next penThreeColors (by decide) (by decide) rfl
  exact ⟨h.1, h.2.2.1, h.2.2.2.1⟩

/-! ## C9: radius clamping -/

/-- C9: for every pen state whose bounds satisfy `minRadius <= maxRadius` and
every delta `mod`, `_changeRadius(mod)` returns a state (it is total) whose
radius lies in `[minRadius, maxRadius]`: it is `maxRadius` when
`radius + mod > maxRadius`, `minRadius` when `radius + mod < minRadius`, and
`radius + mod` otherwise; the bounds themselves are unchanged. -/
theorem C9_radius_clamped (s : State) (mod : ℚ) (h : s.data.minRadius ≤ s.data.maxRadius) :
    s.data.minRadius ≤ (_changeRadius mod s).data.radius ∧
      (_changeRadius mod s).data.radius ≤ s.data.maxRadius ∧
      (s.data.radius + mod > s.data.maxRadius →
        (_changeRadius mod s).data.radius = s.data.maxRadius) ∧
      (s.data.radius + mod < s.data.minRadius →
        (_changeRadius mod s).data.radius = s.data.minRadius) ∧
      (s.data.minRadius ≤ s.data.radius + mod → s.data.radius + mod ≤ s.data.maxRadius →
        (_changeRadius mod s).data.radius = s.data.radius + mod) ∧
      (_changeRadius mod s).data.minRadius = s.data.minRadius ∧
      (_changeRadius mod s).data.maxRadius = s.data.maxRadius := by
  show s.data.minRadius ≤ max s.data.minRadius (min (s.data.radius + mod) s.data.maxRadius) ∧
    max s.data.minRadius (min (s.data.radius + mod) s.data.maxRadius) ≤ s.data.maxRadius ∧
    (s.data.radius + mod > s.data.maxRadius →
      max s.data.minRadius (min (s.data.radius + mod) s.data.maxRadius) = s.data.maxRadius) ∧
    (s.data.radius + mod < s.data.minRadius →
      max s.data.minRadius (min (s.data.radius + mod) s.data.maxRadius) = s.data.minRadius) ∧
    (s.data.minRadius ≤ s.data.radius + mod → s.data.radius + mod ≤ s.data.maxRadius →
      max s.data.minRadius (min (s.data.radius + mod) s.data.maxRadius) = s.data.radius + mod) ∧
    s.data.minRadius = s.data.minRadius ∧ s.data.maxRadius = s.data.maxRadius
  refine ⟨le_max_left _ _, max_le h (min_le_right _ _), ?_, ?_, ?_, rfl, rfl⟩
  · intro hgt
    rw [min_eq_right (le_of_lt hgt), max_eq_right h]
  · intro hlt
    rw [min_eq_left (le_trans (le_of_lt hlt) h), max_eq_left (le_of_lt hlt)]
  · intro hlo hhi
    rw [min_eq_left hhi, max_eq_right hlo]

/-- C9 (witness): default bounds `[0.005, 0.2]` and radius 0.01: a delta of 1
clamps to 0.2, a delta of -1 clamps to 0.005. -/
theorem C9_radius_clamped_witness :
    penRadius.data.minRadius ≤ penRadius.data.maxRadius ∧
      (_changeRadius 1 penRadius).data.radius = 2 / 10 ∧
      (_changeRadius (-1) penRadius).data.radius = 5 / 1000 := by
  have hb : penRadius.data.minRadius ≤ penRadius.data.maxRadius := by
    norm_num [penRadius, init, defaultData]
  refine ⟨hb, ?_, ?_⟩
  · exact (C9_radius_clamped penRadius 1 hb).2.2.1 (by norm_num [penRadius, init, defaultData])
  · exact (C9_radius_clamped penRadius (-1) hb).2.2.2.1
      (by norm_num [penRadius, init, defaultData])

/-! ## C10: holder loss -/

theorem tick_grabberId (f : Frame) (s : State) (hm : f.isMine = true) :
    (tick f s).grabberId = holderOf f := by
  rw [tick_eq, if_pos hm, doDraw_eq, targetsStage_grabberId]
  have hr : ∀ t : State, (releaseStage f t).grabberId = t.grabberId := by
    intro t
    unfold releaseStage
    split
    · exact endDraw_grabberId _ _
    · rfl
  have hb : ∀ (i : Option Intersection) (t : State), (breakStage f i t).grabberId = t.grabberId := by
    intro i t
    cases hj : jumpBreak i t
    · rw [breakStage_of_not_jump f i t hj]
      rfl
    · rw [breakStage_of_jump f i t hj]
      exact endDraw_grabberId _ _
  rw [hr, sampleStage_grabberId, directionStage_grabberId, hb, tickBeforeDraw_grabberId]

theorem releaseStage_of_no_holder (f : Frame) (t : State) (hg : t.grabberId = none) :
    releaseStage f t = _endDraw f.ctx t := by
  unfold releaseStage
  split
  · rfl
  · rename_i hc
    rw [endDraw_of_none]
    cases hd : t.currentDrawing with
    | none => rfl
    | some k => exact absurd ⟨by simp [hd], by simp [hg]⟩ hc

theorem countP_sampled (f : Frame) (t : State) :
    (sampled f t).countP Call.isEndDraw = 0 ∧ (sampled f t).countP Call.isReturnDrawing = 0 := by
  unfold sampled
  split
  · split <;> simp [Call.isEndDraw, Call.isReturnDrawing]
  · simp

theorem endDraw_countP (c : Ctx) (s : State) :
    (_endDraw c s).calls.countP Call.isEndDraw =
        s.calls.countP Call.isEndDraw + (if s.currentDrawing.isSome then 1 else 0) ∧
      (_endDraw c s).calls.countP Call.isReturnDrawing =
        s.calls.countP Call.isReturnDrawing + (if s.currentDrawing.isSome then 1 else 0) := by
  unfold _endDraw
  cases h : s.currentDrawing <;>
    simp [List.countP_append, List.countP_cons, Call.isEndDraw, Call.isReturnDrawing]

theorem doDraw_of_no_holder (f : Frame) (i : Option Intersection) (s : State)
    (hg : s.grabberId = none) :
    (_doDraw f i s).currentDrawing = none ∧
      (_doDraw f i s).calls.countP Call.isEndDraw =
        s.calls.countP Call.isEndDraw + (if s.currentDrawing.isSome then 1 else 0) ∧
      (_doDraw f i s).calls.countP Call.isReturnDrawing =
        s.calls.countP Call.isReturnDrawing + (if s.currentDrawing.isSome then 1 else 0) := by
  have hbg : (breakStage f i s).grabberId = none := by
    cases hj : jumpBreak i s
    · rw [breakStage_of_not_jump f i s hj]
      exact hg
    · rw [breakStage_of_jump f i s hj]
      exact (endDraw_grabberId _ _).trans hg
  have hsg : (sampleStage f (directionStage f (breakStage f i s))).grabberId = none := by
    rw [sampleStage_grabberId, directionStage_grabberId, hbg]
  rw [doDraw_eq, targetsStage_currentDrawing, targetsStage_calls,
    releaseStage_of_no_holder f _ hsg]
  refine ⟨endDraw_currentDrawing _ _, ?_⟩
  obtain ⟨he, hr⟩ := endDraw_countP f.ctx (sampleStage f (directionStage f (breakStage f i s)))
  obtain ⟨se, sr⟩ := countP_sampled f (directionStage f (breakStage f i s))
  rw [he, hr, sampleStage_calls, sampleStage_currentDrawing, directionStage_currentDrawing,
    directionStage_calls, List.countP_append, List.countP_append, se, sr]
  cases hj : jumpBreak i s
  · rw [breakStage_of_not_jump f i s hj]
    simp
  · rw [breakStage_of_jump f i s hj]
    obtain ⟨be, br⟩ := endDraw_countP f.ctx { s with worldPosition := s.lastPosition }
    have hs : s.currentDrawing.isSome = true := by
      unfold jumpBreak at hj
      simp only [Bool.and_eq_true] at hj
      exact hj.1
    simp only [recordHit_calls, recordHit_currentDrawing, endDraw_currentDrawing, be, br, hs]
    simp

/-- C10: on every owned tick after which no holder is resolved (`grabberId`
is `null`), the pen is idle after the tick, and the tick issues exactly one
`endDraw` and exactly one `returnDrawing` when a stroke was active at its
start, and none when not.  Consequently, after every owned tick, an active
stroke implies a resolved holder. -/
theorem C10_holder_loss_cancels_stroke (f : Frame) (s : State) (hm : f.isMine = true) :
    ((tick f s).grabberId = none →
        (tick f s).currentDrawing = none ∧
          (tick f s).calls.countP Call.isEndDraw =
            s.calls.countP Call.isEndDraw + (if s.currentDrawing.isSome then 1 else 0) ∧
          (tick f s).calls.countP Call.isReturnDrawing =
            s.calls.countP Call.isReturnDrawing + (if s.currentDrawing.isSome then 1 else 0)) ∧
      ((tick f s).currentDrawing.isSome = true → (tick f s).grabberId.isSome = true) := by
  have key : (tick f s).grabberId = none →
      (tick f s).currentDrawing = none ∧
        (tick f s).calls.countP Call.isEndDraw =
          s.calls.countP Call.isEndDraw + (if s.currentDrawing.isSome then 1 else 0) ∧
        (tick f s).calls.countP Call.isReturnDrawing =
          s.calls.countP Call.isReturnDrawing + (if s.currentDrawing.isSome then 1 else 0) := by
    intro hn
    rw [tick_grabberId f s hm] at hn
    have hh : _handleInput f s = { s with grabberId := none } := by
      rw [handleInput_eq, hn]
    have hp := doDraw_of_no_holder f (tickIntersection f s) (tickBeforeDraw f s)
      ((tickBeforeDraw_grabberId f s).trans hn)
    rw [tickBeforeDraw_calls, tickBeforeDraw_currentDrawing, hh] at hp
    rw [tick_eq, if_pos hm]
    exact hp
  refine ⟨key, ?_⟩
  intro ha
  cases hg : (tick f s).grabberId with
  | some g => rfl
  | none =>
    rw [(key hg).1] at ha
    cases ha

/-- C10 (witness): `penHeld` holds sink `0`; an owned tick on which nothing
holds the pen ends the stroke with one `endDraw` and one `returnDrawing`. -/
theorem C10_holder_loss_cancels_stroke_witness :
    (looseFrame ⟨0, 0, 0⟩ ⟨0, 0, 0⟩ 3).isMine = true ∧
      (tick (looseFrame ⟨0, 0, 0⟩ ⟨0, 0, 0⟩ 3) penHeld).grabberId = none ∧
      penHeld.currentDrawing = some 0 ∧
      (tick (looseFrame ⟨0, 0, 0⟩ ⟨0, 0, 0⟩ 3) penHeld).currentDrawing = none ∧
      (tick (looseFrame ⟨0, 0, 0⟩ ⟨0, 0, 0⟩ 3) penHeld).calls.countP Call.isEndDraw =
        penHeld.calls.countP Call.isEndDraw + 1 := by
  have hg : (tick (looseFrame ⟨0, 0, 0⟩ ⟨0, 0, 0⟩ 3) penHeld).grabberId = none := by
    rw [tick_grabberId _ _ rfl]
    rfl
  have h := (C10_holder_loss_cancels_stroke (looseFrame ⟨0, 0, 0⟩ ⟨0, 0, 0⟩ 3) penHeld rfl).1 hg
  exact ⟨rfl, hg, rfl, h.1, h.2.1⟩

/-! ## C11: stop-draw while idle -/

/-- C11: for every pen state with no stroke active, `_endDraw` returns the
state itself: the stroke field, timer, positions, direction and normal are
the same and the log of calls to the Drawing Manager and to sinks has not
grown. -/
theorem C11_endDraw_idle_noop (c : Ctx) (s : State) (h : s.currentDrawing = none) :
    _endDraw c s = s ∧ (_endDraw c s).currentDrawing = none ∧
      (_endDraw c s).calls = s.calls := by
  have he := endDraw_of_none c s h
  rw [he]
  exact ⟨rfl, h, rfl⟩

/-- C11 (witness): the pen right after `init`. -/
theorem C11_endDraw_idle_noop_witness :
    pen0.currentDrawing = none ∧ _endDraw ctx0 pen0 = pen0 :=
  ⟨rfl, (C11_endDraw_idle_noop ctx0 pen0 rfl).1⟩

/-! ## C12: start-draw without a sink -/

/-- C12: for every pen state with no stroke active, a `_startDraw` to which
`getDrawing` returns nothing returns a state (it is total) that is the old one
with the `getDrawing` call logged: the pen stays idle, and no `startDraw`,
`draw` or `endDraw` call is made. -/
theorem C12_startDraw_without_sink (c : Ctx) (s : State) (h : s.currentDrawing = none) :
    _startDraw c none s = { s with calls := s.calls ++ [Call.getDrawing none] } ∧
      (_startDraw c none s).currentDrawing = none ∧
      (_startDraw c none s).calls.filter Call.isStrokeCall =
        s.calls.filter Call.isStrokeCall := by
  refine ⟨?_, rfl, ?_⟩
  · show ({ s with currentDrawing := none, calls := s.calls ++ [Call.getDrawing none] } : State)
      = _
    rw [← h]
  · show (s.calls ++ [Call.getDrawing none]).filter Call.isStrokeCall = _
    simp [Call.isStrokeCall]

/-- C12 (witness): the pen right after `init`, the manager handing out
nothing. -/
theorem C12_startDraw_without_sink_witness :
    pen0.currentDrawing = none ∧ (_startDraw ctx0 none pen0).currentDrawing = none ∧
      (_startDraw ctx0 none pen0).calls = [Call.getDrawing none] :=
  ⟨rfl, (C12_startDraw_without_sink ctx0 pen0 rfl).2.1,
    congrArg State.calls (C12_startDraw_without_sink ctx0 pen0 rfl).1⟩

/-! ## C13: the timer at the start of a stroke -/

theorem idleTimer_of_eq {s t : State}
    (h : (t.currentDrawing, t.timeSinceLastDraw) = (s.currentDrawing, s.timeSinceLastDraw))
    (hs : IdleTimerZero s) : IdleTimerZero t := by
  have h1 : t.currentDrawing = s.currentDrawing := congrArg Prod.fst h
  have h2 : t.timeSinceLastDraw = s.timeSinceLastDraw := congrArg Prod.snd h
  intro hn
  rw [h2]
  exact hs (h1 ▸ hn)

theorem idleTimer_ite (b : Prop) [Decidable b] {s t : State} (hs : IdleTimerZero s)
    (ht : IdleTimerZero t) : IdleTimerZero (if b then t else s) := by
  split <;> assumption

theorem idleTimer_startDraw (c : Ctx) (got : Option Nat) (s : State) (h : IdleTimerZero s)
    (hidle : s.currentDrawing = none) : IdleTimerZero (_startDraw c got s) := by
  intro hn
  rw [startDraw_timeSinceLastDraw]
  exact h hidle

theorem idleTimer_endDraw (c : Ctx) (s : State) (h : IdleTimerZero s) :
    IdleTimerZero (_endDraw c s) := by
  unfold _endDraw
  split
  · intro _
    rfl
  · exact h

theorem idleTimer_intents (f : Frame) (g : Grabber) (s : State) (h : IdleTimerZero s)
    (hidle : (f.userinput g).startDrawing = true → s.currentDrawing = none) :
    IdleTimerZero (intents f g s) := by
  rw [intents_eq]
  refine idleTimer_of_eq (intentsTail_keeps (fun t => (t.currentDrawing, t.timeSinceLastDraw))
    (fun _ _ => rfl) (fun _ _ => rfl) undoDraw_timer_and_stroke (fun _ _ => rfl) f g _) ?_
  have h2 : IdleTimerZero
      (if (f.userinput g).startDrawing = true then _startDraw f.ctx f.getDrawingOnStart s
        else s) := by
    split
    · exact idleTimer_startDraw _ _ _ h (hidle (by assumption))
    · exact h
  unfold intentsHead
  split
  · exact idleTimer_endDraw _ _ h2
  · exact h2

theorem idleTimer_handleInput (f : Frame) (s : State) (h : IdleTimerZero s)
    (hidle : ∀ g, holderOf f = some g → (f.userinput g).startDrawing = true →
      s.currentDrawing = none) :
    IdleTimerZero (_handleInput f s) := by
  rw [handleInput_eq]
  cases hg : holderOf f with
  | none => exact idleTimer_of_eq rfl h
  | some g =>
    refine idleTimer_intents f g _ ?_ ?_
    · cases g <;> exact idleTimer_of_eq rfl h
    · intro hs
      have := hidle g hg hs
      cases g <;> exact this

theorem idleTimer_doDraw (f : Frame) (i : Option Intersection) (s : State)
    (h : IdleTimerZero s) : IdleTimerZero (_doDraw f i s) := by
  rw [doDraw_eq]
  have hb : IdleTimerZero (breakStage f i s) := by
    unfold breakStage
    exact idleTimer_of_eq rfl
      (idleTimer_ite _ h (idleTimer_endDraw _ _ (idleTimer_of_eq rfl h)))
  have hd : IdleTimerZero (directionStage f (breakStage f i s)) := by
    unfold directionStage
    exact idleTimer_ite _ (idleTimer_of_eq rfl hb) hb
  have hs : IdleTimerZero (sampleStage f (directionStage f (breakStage f i s))) := by
    intro hn
    rw [sampleStage_currentDrawing] at hn
    rw [sampleStage_of_idle f _ hn]
    exact hd hn
  have hr : IdleTimerZero
      (releaseStage f (sampleStage f (directionStage f (breakStage f i s)))) := by
    unfold releaseStage
    exact idleTimer_ite _ hs (idleTimer_endDraw _ _ hs)
  unfold targetsStage
  exact idleTimer_ite _ hr (idleTimer_of_eq rfl hr)

theorem idleTimer_tick (f : Frame) (s : State) (h : IdleTimerZero s)
    (hidle : (Step.tick f).startFires = true → s.currentDrawing = none) :
    IdleTimerZero (tick f s) := by
  rw [tick_eq]
  split
  · rename_i hm
    apply idleTimer_doDraw
    have hh : IdleTimerZero (_handleInput f s) := by
      apply idleTimer_handleInput f s h
      intro g hg hs
      apply hidle
      simp [Step.startFires, hm, hg, hs]
    refine idleTimer_of_eq ?_ hh
    rw [tickBeforeDraw_currentDrawing, tickBeforeDraw_timeSinceLastDraw]
  · exact h

theorem idleTimer_step (st : Step) (s : State) (h : IdleTimerZero s)
    (hidle : st.startFires = true → s.currentDrawing = none) : IdleTimerZero (step s st) := by
  cases st with
  | tick f => exact idleTimer_tick f s h hidle
  | startDraw c got => exact idleTimer_startDraw c got s h (hidle rfl)
  | endDraw c => exact idleTimer_endDraw c s h
  | undoDraw got => exact idleTimer_of_eq (undoDraw_timer_and_stroke got s) h

theorem idleTimer_run (steps : List Step) (s : State) (h : IdleTimerZero s)
    (hidle : StartsWhenIdle s steps) : IdleTimerZero (run s steps) := by
  induction steps generalizing s with
  | nil => exact h
  | cons st rest ih =>
    obtain ⟨h1, h2⟩ := hidle
    exact ih (step s st) (idleTimer_step st s h h1) h2

theorem tick_quiet_pen0 : tick (heldFrame ⟨0, 0, 0⟩ ⟨0, 0, 0⟩ 3) pen0 = penTicked := by
  norm_num [tick, _handleInput, heldFrame, pen0, penTicked, init, noActions, _getIntersection,
    _updatePenTip, _doDraw, jumpBreak, almostEquals, defaultData, _endDraw, abs_lt, objectOf,
    distanceOf]

theorem tick_quiet_drawing :
    tick (heldFrame ⟨0, 0, 0⟩ ⟨0, 0, 0⟩ 3) (_startDraw ctx0 (some 0) penTicked) =
      { _startDraw ctx0 (some 0) penTicked with timeSinceLastDraw := 3 } := by
  have hm : jsMod 3 5 = 3 := by
    rw [jsMod_of_bounds 3 5 0 (by norm_num) (by norm_num) (by norm_num)]
    norm_num
  norm_num [tick, _handleInput, heldFrame, pen0, penTicked, init, noActions, _getIntersection,
    _updatePenTip, _doDraw, jumpBreak, almostEquals, defaultData, _endDraw, _startDraw, abs_lt,
    objectOf, distanceOf, sampleDue, hm]

/-- C13 (counterexample): from the initial state, a quiet tick, a start-draw
that acquires sink `0`, a tick of `dt = 3`, and a second start-draw that
acquires sink `0` again: right after that successful start-draw the stroke is
active and the timer is 3, not 0. -/
theorem C13_timer_not_reset_by_start :
    (run pen0 restartRun).currentDrawing = some 0 ∧
      (run pen0 restartRun).timeSinceLastDraw = 3 ∧
      (run pen0 restartRun).calls.getLast? =
        some (Call.startDraw 0 ⟨0, 0, 0⟩ ⟨1, 0, 0⟩
          (_getNormal ctx0 ⟨0, 0, 0⟩ ⟨1, 0, 0⟩) (some "#FF0033") (1 / 100)) := by
  have hr : run pen0 restartRun =
      _startDraw ctx0 (some 0)
        { _startDraw ctx0 (some 0) penTicked with timeSinceLastDraw := 3 } := by
    show _startDraw ctx0 (some 0) (tick _ (_startDraw ctx0 (some 0) (tick _ pen0))) = _
    rw [tick_quiet_pen0, tick_quiet_drawing]
  rw [hr]
  exact ⟨rfl, rfl, rfl⟩

/-- C13 (amended): in every state reached from initialisation by a sequence of
ticks and intents in which each start-draw intent fires while no stroke is
active, the timer is zero whenever no stroke is active; so immediately after a
start-draw that acquires a sink from such an idle state, fired on its own or
inside `_handleInput` for the resolved holder, `timeSinceLastDraw` is zero. -/
theorem C13_timer_zero_after_start (data : Data) (position : Vec3) (steps : List Step)
    (h : StartsWhenIdle (init data position) steps)
    (hidle : (run (init data position) steps).currentDrawing = none) :
    (run (init data position) steps).timeSinceLastDraw = 0 ∧
      (∀ c k, (_startDraw c (some k) (run (init data position) steps)).currentDrawing = some k ∧
        (_startDraw c (some k) (run (init data position) steps)).timeSinceLastDraw = 0) ∧
      (∀ c k g,
        (_startDraw c (some k)
          (withHolder g (run (init data position) steps))).currentDrawing = some k ∧
        (_startDraw c (some k)
          (withHolder g (run (init data position) steps))).timeSinceLastDraw = 0) := by
  have hz : (run (init data position) steps).timeSinceLastDraw = 0 :=
    idleTimer_run steps (init data position) (fun _ => rfl) h hidle
  refine ⟨hz, fun c k => ⟨rfl, hz⟩, fun c k g => ⟨rfl, ?_⟩⟩
  rw [startDraw_timeSinceLastDraw]
  cases g <;> exact hz

/-- C13 (witness): a quiet tick, a start-draw, a tick of `dt = 3` that leaves
the timer at 3, and a stop-draw: the pen is idle with the timer at zero, and
a start-draw from there begins with the timer at zero. -/
theorem C13_timer_zero_after_start_witness :
    StartsWhenIdle (init defaultData ⟨0, 0, 0⟩) strokeRun ∧
      (run (init defaultData ⟨0, 0, 0⟩) strokeRun).currentDrawing = none ∧
      (_startDraw ctx0 (some 0) (run (init defaultData ⟨0, 0, 0⟩) strokeRun)).timeSinceLastDraw
        = 0 := by
  have hs : StartsWhenIdle (init defaultData ⟨0, 0, 0⟩) strokeRun := by
    refine ⟨fun _ => rfl, ?_, ?_, ?_, trivial⟩
    · intro _
      show (tick _ pen0).currentDrawing = none
      rw [tick_quiet_pen0]
      rfl
    · intro hf
      exact absurd hf (by simp [Step.startFires, heldFrame, holderOf, noActions])
    · intro hf
      exact absurd hf (by simp [Step.startFires])
  have hi : (run (init defaultData ⟨0, 0, 0⟩) strokeRun).currentDrawing = none :=
    endDraw_currentDrawing _ _
  exact ⟨hs, hi, ((C13_timer_zero_after_start defaultData ⟨0, 0, 0⟩ strokeRun hs hi).2.1
    ctx0 0).2⟩

/-! ## C14: undo -/

/-- C14: in every pen state, idle or drawing, `_undoDraw` changes nothing but
the log of calls, so `currentDrawing`, `timeSinceLastDraw`, `lastPosition`,
`direction`, `normal`, the last intersected surface and the last intersection
distance are unchanged.  When `getDrawing` returns a handle, the calls made
are `getDrawing`, then `undoDraw` on that handle, then `returnDrawing`; when
it returns nothing, the only call is that `getDrawing`. -/
theorem C14_undoDraw_frame (got : Option Nat) (s : State) :
    _undoDraw got s =
        { s with
          calls := s.calls ++
            (match got with
            | some k => [Call.getDrawing (some k), Call.undoDraw k, Call.returnDrawing]
            | none => [Call.getDrawing none]) } ∧
      (_undoDraw got s).currentDrawing = s.currentDrawing ∧
      (_undoDraw got s).timeSinceLastDraw = s.timeSinceLastDraw ∧
      (_undoDraw got s).lastPosition = s.lastPosition ∧
      (_undoDraw got s).direction = s.direction ∧
      (_undoDraw got s).normal = s.normal ∧
      (_undoDraw got s).lastIntersectedObject = s.lastIntersectedObject ∧
      (_undoDraw got s).lastIntersectionDistance = s.lastIntersectionDistance := by
  cases got <;> simp [_undoDraw]

/-! ## C15: holder resolution -/

theorem startDraw_drawMode (c : Ctx) (got : Option Nat) (s : State) :
    (_startDraw c got s).data.drawMode = s.data.drawMode := by
  cases got <;> rfl

theorem endDraw_drawMode (c : Ctx) (s : State) :
    (_endDraw c s).data.drawMode = s.data.drawMode := by
  unfold _endDraw
  split <;> rfl

theorem undoDraw_drawMode (got : Option Nat) (s : State) :
    (_undoDraw got s).data.drawMode = s.data.drawMode := by
  cases got <;> rfl

theorem intents_drawMode (f : Frame) (g : Grabber) (s1 : State) :
    (intents f g s1).data.drawMode =
      if g ≠ Grabber.cursor ∧ (f.userinput g).switchDrawMode = true then
        s1.data.drawMode.toggled
      else s1.data.drawMode := by
  unfold intents
  lift_lets
  intro a s2 s3 s4 s5 s6 s7
  have h2 : s2.data.drawMode = s1.data.drawMode :=
    ite_keeps (fun t => t.data.drawMode) _ _ _ (startDraw_drawMode _ _ _)
  have h3 : s3.data.drawMode = s2.data.drawMode :=
    ite_keeps (fun t => t.data.drawMode) _ _ _ (endDraw_drawMode _ _)
  have h4 : s4.data.drawMode = s3.data.drawMode :=
    ite_keeps (fun t => t.data.drawMode) _ _ _ rfl
  have h5 : s5.data.drawMode = s4.data.drawMode :=
    ite_keeps (fun t => t.data.drawMode) _ _ _ rfl
  have h6 : s6.data.drawMode = s5.data.drawMode :=
    ite_keeps (fun t => t.data.drawMode) _ _ _ rfl
  have h7 : s7.data.drawMode = s6.data.drawMode :=
    ite_keeps (fun t => t.data.drawMode) _ _ _ (undoDraw_drawMode _ _)
  have hall : s7.data.drawMode = s1.data.drawMode :=
    h7.trans (h6.trans (h5.trans (h4.trans (h3.trans h2))))
  split
  · show (if s7.data.drawMode = DrawMode.DEFAULT_3D then DrawMode.PROJECTION
      else DrawMode.DEFAULT_3D) = _
    rw [hall]
    rfl
  · exact hall

/-- C15: `_handleInput` resolves the holder by fixed priority: `grabberId`
becomes the right hand if it holds the pen, else the left hand if it does,
else the remote cursor if it does, else `null`.  When the cursor is resolved
the draw mode after `_handleInput` is `PROJECTION`; when nothing is resolved
the whole state but `grabberId` is as before, the draw mode included; when a
hand is resolved (whether or not the remote holds the pen too) the draw mode
is the old one, toggled only if that hand's `switchDrawMode` action fires. -/
theorem C15_holder_priority (f : Frame) (s : State) :
    (_handleInput f s).grabberId =
        (if f.rightHandHeld then some Grabber.playerRightController
        else if f.leftHandHeld then some Grabber.playerLeftController
        else if f.rightRemoteHeld then some Grabber.cursor
        else none) ∧
      ((_handleInput f s).grabberId = some Grabber.cursor →
        (_handleInput f s).data.drawMode = DrawMode.PROJECTION) ∧
      ((_handleInput f s).grabberId = none →
        _handleInput f s = { s with grabberId := none } ∧
          (_handleInput f s).data.drawMode = s.data.drawMode) ∧
      (∀ g, (_handleInput f s).grabberId = some g → g ≠ Grabber.cursor →
        (_handleInput f s).data.drawMode =
          if (f.userinput g).switchDrawMode = true then s.data.drawMode.toggled
          else s.data.drawMode) := by
  have hg := handleInput_grabberId f s
  refine ⟨hg, ?_, ?_, ?_⟩
  · intro hc
    rw [hg] at hc
    rw [handleInput_eq, hc, intents_drawMode]
    simp [withHolder]
  · intro hn
    rw [hg] at hn
    rw [handleInput_eq, hn]
    exact ⟨rfl, rfl⟩
  · intro g hsome hne
    rw [hg] at hsome
    rw [handleInput_eq, hsome, intents_drawMode]
    have hw : (withHolder g s).data.drawMode = s.data.drawMode := by
      cases g
      · rfl
      · rfl
      · exact absurd rfl hne
    rw [hw]
    simp [hne]

/-- C15 (witness): with the right hand and the remote cursor both holding the
pen, the right hand is resolved and the mode stays `DEFAULT_3D`; with only the
cursor holding it, the cursor is resolved and the mode becomes `PROJECTION`;
with nothing holding it, no holder is resolved and the mode stays. -/
theorem C15_holder_priority_witness :
    (_handleInput bothHeldFrame pen0).grabberId = some Grabber.playerRightController ∧
      (_handleInput bothHeldFrame pen0).data.drawMode = DrawMode.DEFAULT_3D ∧
      (_handleInput (cursorFrame ⟨⟨0, 0, 5⟩, 1, 1⟩) pen0).grabberId = some Grabber.cursor ∧
      (_handleInput (cursorFrame ⟨⟨0, 0, 5⟩, 1, 1⟩) pen0).data.drawMode = DrawMode.PROJECTION ∧
      (_handleInput (looseFrame ⟨0, 0, 0⟩ ⟨0, 0, 0⟩ 3) pen0).data.drawMode =
        DrawMode.DEFAULT_3D := by
  have hb := C15_holder_priority bothHeldFrame pen0
  have hc := C15_holder_priority (cursorFrame ⟨⟨0, 0, 5⟩, 1, 1⟩) pen0
  have hl := C15_holder_priority (looseFrame ⟨0, 0, 0⟩ ⟨0, 0, 0⟩ 3) pen0
  exact ⟨hb.1, (hb.2.2.2 _ hb.1 (by decide)).trans rfl, hc.1, hc.2.1 hc.1,
    ((hl.2.2.1 hl.1).2).trans rfl⟩

/-! ## C16: the intersection resolver -/

/-- C16: `_getIntersection` returns no hit whenever the draw mode is
`DEFAULT_3D`, and whenever `grabberId` is `null`, whatever the mode and the
cursor pose supplied; in the `PROJECTION` mode with a holder it returns the
first hit of the raycast against the targets, along the cursor pose when one
is supplied and along the ray of the pen's parent otherwise, and no hit when
the raycast finds none. -/
theorem C16_getIntersection (f : Frame) (cursorPose : Option Ray) (s : State) :
    (s.data.drawMode = DrawMode.DEFAULT_3D → _getIntersection f cursorPose s = none) ∧
      (s.grabberId = none → _getIntersection f cursorPose s = none) ∧
      (∀ g, s.data.drawMode = DrawMode.PROJECTION → s.grabberId = some g →
        _getIntersection f cursorPose s =
            (f.intersectObjects s.targets (cursorPose.getD f.parentRay)).head? ∧
          (f.intersectObjects s.targets (cursorPose.getD f.parentRay) = [] →
            _getIntersection f cursorPose s = none)) := by
  refine ⟨?_, ?_, ?_⟩
  · intro h
    simp [_getIntersection, h]
  · intro h
    unfold _getIntersection
    rw [h]
    split <;> rfl
  · intro g hm hg
    have he : _getIntersection f cursorPose s =
        (f.intersectObjects s.targets (cursorPose.getD f.parentRay)).head? := by
      unfold _getIntersection
      rw [if_pos hm, hg]
      cases cursorPose <;> rfl
    refine ⟨he, ?_⟩
    intro hnil
    rw [he, hnil]
    rfl

/-- C16 (witness): the pen `penProjecting` (projection mode, held by the right
hand) gets the first of two hits; the same pen without a holder gets none even
with a cursor pose; `penHeld` (direct mode) gets none. -/
theorem C16_getIntersection_witness :
    _getIntersection
        { hitFrame ⟨⟨0, 0, 5⟩, 1, 1⟩ 3 with
          intersectObjects := fun _ _ => [⟨⟨0, 0, 5⟩, 1, 1⟩, ⟨⟨0, 0, 9⟩, 2, 2⟩] }
        none penProjecting = some ⟨⟨0, 0, 5⟩, 1, 1⟩ ∧
      _getIntersection (hitFrame ⟨⟨0, 0, 5⟩, 1, 1⟩ 3) (some ⟨⟨0, 0, 0⟩, ⟨0, 0, -1⟩⟩)
        { penProjecting with grabberId := none } = none ∧
      _getIntersection (hitFrame ⟨⟨0, 0, 5⟩, 1, 1⟩ 3) none penHeld = none :=
  ⟨((C16_getIntersection _ none penProjecting).2.2 Grabber.playerRightController rfl rfl).1,
    (C16_getIntersection _ _ { penProjecting with grabberId := none }).2.1 rfl,
    (C16_getIntersection _ none penHeld).1 rfl⟩

/-! ## The stored direction is normalised -/

theorem doDraw_direction_cases (f : Frame) (i : Option Intersection) (s : State) :
    (_doDraw f i s).direction = s.direction ∨
      ∃ v, (_doDraw f i s).direction = f.ctx.normalize v := by
  have h1 : (_doDraw f i s).direction = (directionStage f (breakStage f i s)).direction := by
    rw [doDraw_eq]
    exact congrArg Prod.fst ((targetsStage_direction f _).trans
      ((releaseStage_direction f _).trans (sampleStage_direction f _)))
  have hb : (breakStage f i s).direction = s.direction := by
    cases hj : jumpBreak i s
    · rw [breakStage_of_not_jump f i s hj]
      rfl
    · rw [breakStage_of_jump f i s hj]
      exact congrArg Prod.fst (endDraw_direction f.ctx { s with worldPosition := s.lastPosition })
  rw [h1]
  unfold directionStage
  split
  · exact Or.inl hb
  · exact Or.inr ⟨_, rfl⟩

theorem run_direction_normalized (N : Vec3 → Vec3) (hN : ∀ v, N (N v) = N v)
    (steps : List Step) (s : State) (hs : N s.direction = s.direction)
    (hsteps : ∀ st ∈ steps, st.normalizesWith N) :
    N (run s steps).direction = (run s steps).direction := by
  induction steps generalizing s with
  | nil => exact hs
  | cons st rest ih =>
    apply ih (step s st) _ (fun t ht => hsteps t (List.mem_cons_of_mem st ht))
    have hst := hsteps st (List.mem_cons_self st rest)
    cases st with
    | tick f =>
      show N (tick f s).direction = (tick f s).direction
      rw [tick_eq]
      split
      · have hp : (tickBeforeDraw f s).direction = s.direction :=
          congrArg Prod.fst (tickBeforeDraw_direction f s)
        rcases doDraw_direction_cases f (tickIntersection f s) (tickBeforeDraw f s) with h | h
        · rw [h, hp]
          exact hs
        · obtain ⟨v, hv⟩ := h
          have hf : f.ctx.normalize = N := hst
          rw [hv, hf]
          exact hN v
      · exact hs
    | startDraw c got =>
      show N (_startDraw c got s).direction = (_startDraw c got s).direction
      rw [show (_startDraw c got s).direction = s.direction from
        congrArg Prod.fst (startDraw_direction c got s)]
      exact hs
    | endDraw c =>
      show N (_endDraw c s).direction = (_endDraw c s).direction
      rw [show (_endDraw c s).direction = s.direction from
        congrArg Prod.fst (endDraw_direction c s)]
      exact hs
    | undoDraw got =>
      show N (_undoDraw got s).direction = (_undoDraw got s).direction
      rw [show (_undoDraw got s).direction = s.direction from
        congrArg Prod.fst (undoDraw_direction got s)]
      exact hs

/-! ## C17: the normal -/

/-- The normal `_getNormal` computes is the specification's formula taken at
the camera's local position `camera.object3D.position`, once the direction is
unit length (unchanged by `normalize`). -/
theorem getNormal_eq_specNormal_local (c : Ctx) (position direction : Vec3)
    (h : c.normalize direction = direction) :
    _getNormal c position direction =
      specNormal c.normalize c.cameraPosition position direction := by
  unfold _getNormal specNormal
  rw [h]

/-- C17 (the code at the failing input): the camera's local position
`camera.object3D.position` is `(0, 0, 1)` while its position in world space is
`(0, 1, 0)`; the pen is at the origin with direction `(1, 0, 0)`.  The normal
passed to `startDraw` and to `endDraw` is `(0, 1, 0)`, computed from the local
position, while the specification's formula with the world position gives
`(0, 0, -1)`; the two agree when the world position is the local one.  In
general `_getNormal` computes the specification's formula at the local
position whenever the direction is unit length. -/
theorem C17_normal_from_local_camera_position :
    (_startDraw ctx0 (some 0) pen0).calls =
        [Call.getDrawing (some 0),
          Call.startDraw 0 ⟨0, 0, 0⟩ ⟨1, 0, 0⟩ ⟨0, 1, 0⟩ (some "#FF0033") (1 / 100)] ∧
      (_endDraw ctx0 penDrawing).calls =
        penDrawing.calls ++ [Call.endDraw 0 ⟨0, 0, 0⟩ ⟨1, 0, 0⟩ ⟨0, 1, 0⟩, Call.returnDrawing] ∧
      specNormal ctx0.normalize ⟨0, 1, 0⟩ ⟨0, 0, 0⟩ ⟨1, 0, 0⟩ = ⟨0, 0, -1⟩ ∧
      specNormal ctx0.normalize ctx0.cameraPosition ⟨0, 0, 0⟩ ⟨1, 0, 0⟩ = ⟨0, 1, 0⟩ ∧
      (⟨0, 1, 0⟩ : Vec3) ≠ ⟨0, 0, -1⟩ ∧
      (∀ (c : Ctx) (position direction : Vec3), c.normalize direction = direction →
        _getNormal c position direction =
          specNormal c.normalize c.cameraPosition position direction) := by
  have hn : _getNormal ctx0 ⟨0, 0, 0⟩ ⟨1, 0, 0⟩ = ⟨0, 1, 0⟩ := by
    norm_num [_getNormal, ctx0, normalizeAxis, Vec3.subVectors, Vec3.crossVectors]
  refine ⟨?_, ?_, ?_, ?_, ?_, getNormal_eq_specNormal_local⟩
  · show [Call.getDrawing (some 0),
      Call.startDraw 0 ⟨0, 0, 0⟩ ⟨1, 0, 0⟩ (_getNormal ctx0 ⟨0, 0, 0⟩ ⟨1, 0, 0⟩)
        (some "#FF0033") (1 / 100)] = _
    rw [hn]
  · show penDrawing.calls ++
      [Call.endDraw 0 ⟨0, 0, 0⟩ ⟨1, 0, 0⟩ (_getNormal ctx0 ⟨0, 0, 0⟩ ⟨1, 0, 0⟩),
        Call.returnDrawing] = _
    rw [hn]
  · norm_num [specNormal, ctx0, normalizeAxis, Vec3.subVectors, Vec3.crossVectors]
  · norm_num [specNormal, ctx0, normalizeAxis, Vec3.subVectors, Vec3.crossVectors]
  · intro h
    have hy := congrArg Vec3.y h
    norm_num at hy

/-! ## C18: the position used when a jump break closes the stroke -/

theorem doDraw_of_jump (f : Frame) (i : Option Intersection) (s : State)
    (hj : jumpBreak i s = true) :
    ∃ k, s.currentDrawing = some k ∧
      (_doDraw f i s).currentDrawing = none ∧
      (_doDraw f i s).calls =
        s.calls ++
          [Call.endDraw k s.lastPosition s.direction
            (_getNormal f.ctx s.lastPosition s.direction), Call.returnDrawing] ∧
      (_doDraw f i s).direction = s.direction ∧
      (_doDraw f i s).lastPosition = s.lastPosition := by
  have hs : s.currentDrawing.isSome = true := by
    unfold jumpBreak at hj
    simp only [Bool.and_eq_true] at hj
    exact hj.1
  obtain ⟨k, hk⟩ := Option.isSome_iff_exists.mp hs
  refine ⟨k, hk, ?_⟩
  have he : _endDraw f.ctx { s with worldPosition := s.lastPosition } =
      { s with
        worldPosition := s.lastPosition
        timeSinceLastDraw := 0
        normal := _getNormal f.ctx s.lastPosition s.direction
        calls := s.calls ++
          [Call.endDraw k s.lastPosition s.direction
            (_getNormal f.ctx s.lastPosition s.direction), Call.returnDrawing]
        currentDrawing := none } := by
    unfold _endDraw
    simp [hk]
  rw [doDraw_eq, breakStage_of_jump f _ s hj, he]
  rw [directionStage_of_same f _ rfl, sampleStage_of_idle f _ rfl, releaseStage_of_idle f _ rfl]
  unfold targetsStage
  split <;> exact ⟨rfl, rfl, rfl, rfl⟩

/-- C18: on an owned tick on which `_doDraw` detects a jump break, the stroke
on sink `k` is closed by an `endDraw` whose point argument is `lastPosition`
as it was at the start of the tick (not the world position of the pointer on
this tick), followed by `returnDrawing`; the stored direction and
`lastPosition` after the tick are those from before the tick. -/
theorem C18_jump_break_closes_at_last_position (f : Frame) (s : State)
    (hm : f.isMine = true)
    (hj : jumpBreak (tickIntersection f s) (tickBeforeDraw f s) = true) :
    ∃ k, (tickBeforeDraw f s).currentDrawing = some k ∧
      (tick f s).calls =
        (tickBeforeDraw f s).calls ++
          [Call.endDraw k s.lastPosition s.direction
            (_getNormal f.ctx s.lastPosition s.direction), Call.returnDrawing] ∧
      (tick f s).direction = s.direction ∧
      (tick f s).lastPosition = s.lastPosition ∧
      (tick f s).currentDrawing = none := by
  obtain ⟨k, hk, hc, hcalls, hd, hl⟩ := doDraw_of_jump f _ _ hj
  have hp := tickBeforeDraw_direction f s
  have hp1 : (tickBeforeDraw f s).direction = s.direction := congrArg Prod.fst hp
  have hp2 : (tickBeforeDraw f s).lastPosition = s.lastPosition := congrArg Prod.snd hp
  rw [hp1, hp2] at hcalls
  rw [tick_of_mine f s hm]
  exact ⟨k, hk, hcalls, hd.trans hp1, hl.trans hp2, hc⟩

/-- C18 (witness): `penOnSurface` last hit surface `1` and was last sampled at
the origin; on a tick without a hit and with the pointer at `(0, 0, 5)` the
stroke is closed by an `endDraw` at the origin. -/
theorem C18_jump_break_closes_at_last_position_witness :
    (tickBeforeDraw (heldFrame ⟨0, 0, 5⟩ ⟨0, 0, 0⟩ 3) penOnSurface).worldPosition = ⟨0, 0, 5⟩ ∧
      penOnSurface.lastPosition = ⟨0, 0, 0⟩ ∧
      (tick (heldFrame ⟨0, 0, 5⟩ ⟨0, 0, 0⟩ 3) penOnSurface).calls =
        penOnSurface.calls ++
          [Call.endDraw 0 ⟨0, 0, 0⟩ ⟨1, 0, 0⟩ (_getNormal ctx0 ⟨0, 0, 0⟩ ⟨1, 0, 0⟩),
            Call.returnDrawing] ∧
      (tick (heldFrame ⟨0, 0, 5⟩ ⟨0, 0, 0⟩ 3) penOnSurface).lastPosition = ⟨0, 0, 0⟩ := by
  have hj : jumpBreak (tickIntersection (heldFrame ⟨0, 0, 5⟩ ⟨0, 0, 0⟩ 3) penOnSurface)
      (tickBeforeDraw (heldFrame ⟨0, 0, 5⟩ ⟨0, 0, 0⟩ 3) penOnSurface) = true := by
    decide
  obtain ⟨k, hk, hcalls, _, hl, _⟩ :=
    C18_jump_break_closes_at_last_position (heldFrame ⟨0, 0, 5⟩ ⟨0, 0, 0⟩ 3) penOnSurface rfl hj
  have hk0 : (tickBeforeDraw (heldFrame ⟨0, 0, 5⟩ ⟨0, 0, 0⟩ 3) penOnSurface).currentDrawing
      = some 0 := rfl
  rw [hk0] at hk
  cases hk
  exact ⟨rfl, rfl, hcalls, hl⟩

/-! ## C19: the first tick after `init` -/

/-- C19 (the code at the failing input): from the state left by `init`, the
first owned tick has the pen held in the right hand, `startDrawing` fires, the
Drawing Manager hands out sink `0`, there is no hit and no stop-draw intent.
The stroke is active when `_doDraw` is entered, and `_doDraw` ends it in the
same tick by the jump break, because `lastIntersectedObject` is still
`undefined`, which differs from `null`.  The same tick from `penTicked`, where
an earlier tick has assigned `null`, keeps the stroke; and in general no jump
break occurs without a hit once `lastIntersectedObject` is `null`. -/
theorem C19_first_tick_breaks_new_stroke :
    pen0.lastIntersectedObject = ObjRef.undefined ∧
      tickIntersection (startFrame ⟨0, 0, 0⟩ ⟨0, 0, 0⟩ 3) pen0 = none ∧
      ((startFrame ⟨0, 0, 0⟩ ⟨0, 0, 0⟩ 3).userinput Grabber.playerRightController).stopDrawing
        = false ∧
      (tick (startFrame ⟨0, 0, 0⟩ ⟨0, 0, 0⟩ 3) pen0).grabberId =
        some Grabber.playerRightController ∧
      (tickBeforeDraw (startFrame ⟨0, 0, 0⟩ ⟨0, 0, 0⟩ 3) pen0).currentDrawing = some 0 ∧
      jumpBreak none (tickBeforeDraw (startFrame ⟨0, 0, 0⟩ ⟨0, 0, 0⟩ 3) pen0) = true ∧
      (tick (startFrame ⟨0, 0, 0⟩ ⟨0, 0, 0⟩ 3) pen0).currentDrawing = none ∧
      (tick (startFrame ⟨0, 0, 0⟩ ⟨0, 0, 0⟩ 3) pen0).calls =
        [Call.getDrawing (some 0),
          Call.startDraw 0 ⟨0, 0, 0⟩ ⟨1, 0, 0⟩ (_getNormal ctx0 ⟨0, 0, 0⟩ ⟨1, 0, 0⟩)
            (some "#FF0033") (1 / 100),
          Call.endDraw 0 ⟨0, 0, 0⟩ ⟨1, 0, 0⟩ (_getNormal ctx0 ⟨0, 0, 0⟩ ⟨1, 0, 0⟩),
          Call.returnDrawing] ∧
      (tick (startFrame ⟨0, 0, 0⟩ ⟨0, 0, 0⟩ 3) penTicked).currentDrawing = some 0 ∧
      (∀ s : State, s.lastIntersectedObject = ObjRef.null → jumpBreak none s = false) := by
  have hj : jumpBreak (tickIntersection (startFrame ⟨0, 0, 0⟩ ⟨0, 0, 0⟩ 3) pen0)
      (tickBeforeDraw (startFrame ⟨0, 0, 0⟩ ⟨0, 0, 0⟩ 3) pen0) = true := by
    decide
  obtain ⟨k, hk, hc, hcalls, _, _⟩ :=
    doDraw_of_jump (startFrame ⟨0, 0, 0⟩ ⟨0, 0, 0⟩ 3) _ _ hj
  have hm : (startFrame ⟨0, 0, 0⟩ ⟨0, 0, 0⟩ 3).isMine = true := rfl
  have hk0 : (tickBeforeDraw (startFrame ⟨0, 0, 0⟩ ⟨0, 0, 0⟩ 3) pen0).currentDrawing
      = some 0 := rfl
  rw [hk0] at hk
  cases hk
  refine ⟨rfl, rfl, rfl, ?_, hk0, hj, ?_, ?_, ?_, ?_⟩
  · rw [tick_grabberId _ _ hm]
    rfl
  · rw [tick_of_mine _ _ hm]
    exact hc
  · rw [tick_of_mine _ _ hm, hcalls]
    rfl
  · have hb : tickBeforeDraw (startFrame ⟨0, 0, 0⟩ ⟨0, 0, 0⟩ 3) penTicked =
        { _startDraw ctx0 (some 0) penTicked with
          data := { penTicked.data with penVisible := true } } := rfl
    have hi : tickIntersection (startFrame ⟨0, 0, 0⟩ ⟨0, 0, 0⟩ 3) penTicked = none := rfl
    rw [tick_of_mine _ _ hm, hi, hb]
    simp [doDraw_eq, targetsStage_currentDrawing, releaseStage, sampleStage_currentDrawing,
      sampleStage_grabberId, directionStage_currentDrawing, directionStage_grabberId,
      breakStage, jumpBreak, objectOf, penTicked, pen0, init, _startDraw]
  · intro s hs
    simp [jumpBreak, hs, objectOf]

/-! ## C20: the timer on every tick of a stroke -/

theorem jsMod_lt (a b : ℚ) (hb : 0 < b) : jsMod a b < b := by
  unfold jsMod jsTrunc
  split
  · have h1 := Int.lt_floor_add_one (a / b)
    have h2 : a < b * ((⌊a / b⌋ : ℚ) + 1) := by
      have := (div_lt_iff₀ hb).mp h1
      linarith [mul_comm b ((⌊a / b⌋ : ℚ) + 1)]
    linarith
  · rename_i hneg
    have h1 := Int.le_ceil (a / b)
    have h2 : a ≤ b * (⌈a / b⌉ : ℚ) := by
      have := (div_le_iff₀ hb).mp h1
      linarith [mul_comm b (⌈a / b⌉ : ℚ)]
    linarith

theorem jsMod_nonneg (a b : ℚ) (ha : 0 ≤ a) (hb : 0 < b) : 0 ≤ jsMod a b := by
  unfold jsMod jsTrunc
  rw [if_pos (div_nonneg ha (le_of_lt hb))]
  have h1 := Int.floor_le (a / b)
  have h2 : b * (⌊a / b⌋ : ℚ) ≤ a := by
    have := (le_div_iff₀ hb).mp h1
    linarith [mul_comm b (⌊a / b⌋ : ℚ)]
  linarith

theorem endDraw_timer_nonneg (c : Ctx) (s : State) (h : 0 ≤ s.timeSinceLastDraw) :
    0 ≤ (_endDraw c s).timeSinceLastDraw := by
  unfold _endDraw
  split
  · exact le_refl 0
  · exact h

theorem endDraw_drawFrequency (c : Ctx) (s : State) :
    (_endDraw c s).data.drawFrequency = s.data.drawFrequency := by
  unfold _endDraw
  split <;> rfl

theorem intents_timer_nonneg (f : Frame) (g : Grabber) (s : State)
    (h : 0 ≤ s.timeSinceLastDraw) : 0 ≤ (intents f g s).timeSinceLastDraw := by
  rw [intents_eq, intentsTail_keeps (fun t => t.timeSinceLastDraw) (fun _ _ => rfl)
    (fun _ _ => rfl) (fun got t => congrArg Prod.snd (undoDraw_timer_and_stroke got t))
    (fun _ _ => rfl) f g _]
  have h2 : 0 ≤ (if (f.userinput g).startDrawing = true then
      _startDraw f.ctx f.getDrawingOnStart s else s).timeSinceLastDraw := by
    rw [ite_keeps (fun t => t.timeSinceLastDraw) _ _ _ (startDraw_timeSinceLastDraw _ _ _)]
    exact h
  unfold intentsHead
  split
  · exact endDraw_timer_nonneg _ _ h2
  · exact h2

theorem handleInput_timer_nonneg (f : Frame) (s : State) (h : 0 ≤ s.timeSinceLastDraw) :
    0 ≤ (_handleInput f s).timeSinceLastDraw := by
  rw [handleInput_eq]
  cases holderOf f with
  | none => exact h
  | some g =>
    apply intents_timer_nonneg
    cases g <;> exact h

theorem doDraw_drawFrequency (f : Frame) (i : Option Intersection) (s : State) :
    (_doDraw f i s).data.drawFrequency = s.data.drawFrequency := by
  have ht : ∀ t : State, (targetsStage f t).data.drawFrequency = t.data.drawFrequency := by
    intro t
    unfold targetsStage
    split <;> rfl
  have hr : ∀ t : State, (releaseStage f t).data.drawFrequency = t.data.drawFrequency := by
    intro t
    unfold releaseStage
    split
    · exact endDraw_drawFrequency _ _
    · rfl
  have hs : ∀ t : State, (sampleStage f t).data.drawFrequency = t.data.drawFrequency := by
    intro t
    unfold sampleStage
    split
    · split <;> rfl
    · rfl
  rw [doDraw_eq, ht, hr, hs, directionStage_data]
  cases hj : jumpBreak i s
  · rw [breakStage_of_not_jump f i s hj]
    rfl
  · rw [breakStage_of_jump f i s hj]
    exact endDraw_drawFrequency _ _

theorem doDraw_timer_nonneg (f : Frame) (i : Option Intersection) (s : State)
    (hf : 0 < s.data.drawFrequency) (hdt : 0 ≤ f.dt) (h : 0 ≤ s.timeSinceLastDraw) :
    0 ≤ (_doDraw f i s).timeSinceLastDraw := by
  rw [doDraw_eq, targetsStage_timeSinceLastDraw]
  have hb : 0 ≤ (breakStage f i s).timeSinceLastDraw ∧
      (breakStage f i s).data.drawFrequency = s.data.drawFrequency := by
    cases hj : jumpBreak i s
    · rw [breakStage_of_not_jump f i s hj]
      exact ⟨h, rfl⟩
    · rw [breakStage_of_jump f i s hj]
      exact ⟨endDraw_timer_nonneg f.ctx { s with worldPosition := s.lastPosition } h,
        endDraw_drawFrequency f.ctx { s with worldPosition := s.lastPosition }⟩
  have hs : 0 ≤ (sampleStage f (directionStage f (breakStage f i s))).timeSinceLastDraw := by
    cases hk : (directionStage f (breakStage f i s)).currentDrawing with
    | none =>
      rw [sampleStage_of_idle f _ hk, directionStage_timeSinceLastDraw]
      exact hb.1
    | some k =>
      rw [sampleStage_timeSinceLastDraw f _ k hk, directionStage_timeSinceLastDraw,
        directionStage_data, hb.2]
      exact jsMod_nonneg _ _ (add_nonneg hb.1 hdt) hf
  unfold releaseStage
  split
  · exact endDraw_timer_nonneg _ _ hs
  · exact hs

theorem tick_drawFrequency (f : Frame) (s : State) :
    (tick f s).data.drawFrequency = s.data.drawFrequency := by
  rw [tick_eq]
  split
  · rw [doDraw_drawFrequency, tickBeforeDraw_drawFrequency]
  · rfl

theorem tick_timer_nonneg (f : Frame) (s : State) (hf : 0 < s.data.drawFrequency)
    (hdt : 0 ≤ f.dt) (h : 0 ≤ s.timeSinceLastDraw) : 0 ≤ (tick f s).timeSinceLastDraw := by
  rw [tick_eq]
  split
  · apply doDraw_timer_nonneg
    · rw [tickBeforeDraw_drawFrequency]
      exact hf
    · exact hdt
    · rw [tickBeforeDraw_timeSinceLastDraw]
      exact handleInput_timer_nonneg f s h
  · exact h

theorem step_timer_nonneg (st : Step) (s : State) (hf : 0 < s.data.drawFrequency)
    (hdt : st.dtNonneg) (h : 0 ≤ s.timeSinceLastDraw) :
    0 < (step s st).data.drawFrequency ∧ 0 ≤ (step s st).timeSinceLastDraw := by
  cases st with
  | tick f =>
    refine ⟨?_, tick_timer_nonneg f s hf hdt h⟩
    rw [show step s (Step.tick f) = tick f s from rfl, tick_drawFrequency]
    exact hf
  | startDraw c got =>
    refine ⟨?_, ?_⟩
    · cases got <;> exact hf
    · rw [show step s (Step.startDraw c got) = _startDraw c got s from rfl,
        startDraw_timeSinceLastDraw]
      exact h
  | endDraw c =>
    refine ⟨?_, endDraw_timer_nonneg c s h⟩
    rw [show step s (Step.endDraw c) = _endDraw c s from rfl, endDraw_drawFrequency]
    exact hf
  | undoDraw got =>
    refine ⟨?_, ?_⟩
    · cases got <;> exact hf
    · cases got <;> exact h

theorem run_timer_nonneg (steps : List Step) (s : State) (hf : 0 < s.data.drawFrequency)
    (hdt : ∀ st ∈ steps, st.dtNonneg) (h : 0 ≤ s.timeSinceLastDraw) :
    0 ≤ (run s steps).timeSinceLastDraw := by
  induction steps generalizing s with
  | nil => exact h
  | cons st rest ih =>
    obtain ⟨h1, h2⟩ := step_timer_nonneg st s hf (hdt st (List.mem_cons_self st rest)) h
    exact ih (step s st) h1 (fun t ht => hdt t (List.mem_cons_of_mem st ht)) h2

/-- C20 (counterexample): `penTimer3` holds sink `0` with the timer at 3 and
interval 5.  On a tick of `dt = 3` for which the pen is not locally owned, the
stroke is active before and after and the timer stays 3, while
`(3 + 3) % 5` is 1.  And on an owned tick of `dt = 1` from a state whose timer
is -3, the new timer is `-2 % 5 = -2`, below zero. -/
theorem C20_timer_unchanged_when_not_owned :
    penTimer3.currentDrawing = some 0 ∧
      (tick (foreignFrame ⟨0, 0, 0⟩ ⟨0, 0, 0⟩ 3) penTimer3).currentDrawing = some 0 ∧
      (tick (foreignFrame ⟨0, 0, 0⟩ ⟨0, 0, 0⟩ 3) penTimer3).timeSinceLastDraw = 3 ∧
      jsMod (penTimer3.timeSinceLastDraw + (foreignFrame ⟨0, 0, 0⟩ ⟨0, 0, 0⟩ 3).dt)
        penTimer3.data.drawFrequency = 1 ∧
      (tick (heldFrame ⟨0, 0, 0⟩ ⟨0, 0, 0⟩ 1)
        { penHeld with timeSinceLastDraw := -3 }).currentDrawing = some 0 ∧
      (tick (heldFrame ⟨0, 0, 0⟩ ⟨0, 0, 0⟩ 1)
        { penHeld with timeSinceLastDraw := -3 }).timeSinceLastDraw = -2 := by
  have hm : jsMod (3 + 3) 5 = 1 := by
    rw [jsMod_of_bounds (3 + 3) 5 1 (by norm_num) (by norm_num) (by norm_num)]
    norm_num
  have hneg : jsMod (-3 + 1) 5 = -2 := by
    have hc : ⌈((-3 + 1 : ℚ) / 5)⌉ = 0 := by
      rw [Int.ceil_eq_iff]
      norm_num
    unfold jsMod jsTrunc
    rw [if_neg (by norm_num), hc]
    norm_num
  have hi : tickIntersection (heldFrame ⟨0, 0, 0⟩ ⟨0, 0, 0⟩ 1)
      { penHeld with timeSinceLastDraw := -3 } = none := rfl
  have hb : tickBeforeDraw (heldFrame ⟨0, 0, 0⟩ ⟨0, 0, 0⟩ 1)
      { penHeld with timeSinceLastDraw := -3 } = { penHeld with timeSinceLastDraw := -3 } := rfl
  have hc : (tick (heldFrame ⟨0, 0, 0⟩ ⟨0, 0, 0⟩ 1)
      { penHeld with timeSinceLastDraw := -3 }).currentDrawing = some 0 := by
    rw [tick_of_mine _ _ rfl, hi, hb]
    simp [doDraw_eq, targetsStage_currentDrawing, releaseStage, sampleStage_currentDrawing,
      sampleStage_grabberId, directionStage_currentDrawing, directionStage_grabberId,
      breakStage, jumpBreak, objectOf, penHeld, penDrawing, pen0, init, _startDraw]
  refine ⟨rfl, rfl, rfl, ?_, hc, ?_⟩
  · exact hm
  · rw [(tick_of_active _ _ 0 rfl hc).2.2]
    exact hneg

/-- C20 (amended): on every locally owned tick that ends with an active
stroke, with `drawFrequency > 0`, the new `timeSinceLastDraw` is
`(old timeSinceLastDraw + dt) % drawFrequency` whether or not a point was
emitted, and it is below `drawFrequency`; with `dt >= 0` and a non-negative
old timer it is also at least 0.  The timer is non-negative in every state
reached from initialisation by ticks with `dt >= 0` and intents. -/
theorem C20_timer_wraps_every_tick (f : Frame) (s : State) (steps : List Step)
    (data : Data) (position : Vec3)
    (hm : f.isMine = true) (hfreq : 0 < s.data.drawFrequency) (hdt : 0 ≤ f.dt)
    (he : (tick f s).currentDrawing.isSome = true)
    (hdata : 0 < data.drawFrequency) (hsteps : ∀ st ∈ steps, st.dtNonneg) :
    (tick f s).timeSinceLastDraw =
        jsMod (s.timeSinceLastDraw + f.dt) s.data.drawFrequency ∧
      (tick f s).timeSinceLastDraw < s.data.drawFrequency ∧
      (0 ≤ s.timeSinceLastDraw → 0 ≤ (tick f s).timeSinceLastDraw) ∧
      0 ≤ (run (init data position) steps).timeSinceLastDraw := by
  obtain ⟨k, hk⟩ := Option.isSome_iff_exists.mp he
  obtain ⟨_, _, ht⟩ := tick_of_active f s k hm hk
  refine ⟨ht, ?_, ?_, run_timer_nonneg steps (init data position) hdata hsteps (le_refl 0)⟩
  · rw [ht]
    exact jsMod_lt _ _ hfreq
  · intro h0
    rw [ht]
    exact jsMod_nonneg _ _ (add_nonneg h0 hdt) hfreq

/-- C20 (witness): `penTimer3` (timer 3, interval 5) on an owned tick of
`dt = 3` with the pointer on the sink's last point: no point is emitted, the
stroke stays active and the timer wraps to 1. -/
theorem C20_timer_wraps_every_tick_witness :
    (tick (heldFrame ⟨0, 0, 0⟩ ⟨0, 0, 0⟩ 3) penTimer3).currentDrawing = some 0 ∧
      draws (tick (heldFrame ⟨0, 0, 0⟩ ⟨0, 0, 0⟩ 3) penTimer3).calls = draws penTimer3.calls ∧
      (tick (heldFrame ⟨0, 0, 0⟩ ⟨0, 0, 0⟩ 3) penTimer3).timeSinceLastDraw = 1 ∧
      0 ≤ (run (init defaultData ⟨0, 0, 0⟩) strokeRun).timeSinceLastDraw := by
  have hm : jsMod (3 + 3) 5 = 1 := by
    rw [jsMod_of_bounds (3 + 3) 5 1 (by norm_num) (by norm_num) (by norm_num)]
    norm_num
  have hi : tickIntersection (heldFrame ⟨0, 0, 0⟩ ⟨0, 0, 0⟩ 3) penTimer3 = none := rfl
  have hb : tickBeforeDraw (heldFrame ⟨0, 0, 0⟩ ⟨0, 0, 0⟩ 3) penTimer3 = penTimer3 := rfl
  have hc : (tick (heldFrame ⟨0, 0, 0⟩ ⟨0, 0, 0⟩ 3) penTimer3).currentDrawing = some 0 := by
    rw [tick_of_mine _ _ rfl, hi, hb]
    simp [doDraw_eq, targetsStage_currentDrawing, releaseStage, sampleStage_currentDrawing,
      sampleStage_grabberId, directionStage_currentDrawing, directionStage_grabberId,
      breakStage, jumpBreak, objectOf, penTimer3, penHeld, penDrawing, pen0, init, _startDraw]
  have hd : draws (tick (heldFrame ⟨0, 0, 0⟩ ⟨0, 0, 0⟩ 3) penTimer3).calls =
      draws penTimer3.calls := by
    apply tick_draws_of_blocked
    rw [hb]
    show _ ∨ _
    right
    norm_num [Vec3.distanceToGe, Vec3.distanceToSquared, heldFrame, penTimer3, penHeld,
      penDrawing, pen0, init, _startDraw, defaultData]
  have hf : 0 < penTimer3.data.drawFrequency := by
    norm_num [penTimer3, penHeld, penDrawing, pen0, init, _startDraw, defaultData]
  have hsteps : ∀ st ∈ strokeRun, st.dtNonneg := by
    intro st hst
    simp only [strokeRun, List.mem_cons, List.mem_singleton, List.not_mem_nil, or_false] at hst
    rcases hst with h | h | h | h <;> subst h
    · show (0 : ℚ) ≤ 3
      norm_num
    · trivial
    · show (0 : ℚ) ≤ 3
      norm_num
    · trivial
  have h := C20_timer_wraps_every_tick (heldFrame ⟨0, 0, 0⟩ ⟨0, 0, 0⟩ 3) penTimer3 strokeRun
    defaultData ⟨0, 0, 0⟩ rfl hf (by show (0 : ℚ) ≤ 3; norm_num) (by rw [hc]; rfl)
    (by norm_num [defaultData]) hsteps
  refine ⟨hc, hd, ?_, h.2.2.2⟩
  rw [h.1]
  exact hm

end Pen

namespace GrabbableToggle

/-! ## C21: `onGrabEnd` -/

/-- C21: for every component state and `grab-end` events `e`, `e2`:
when the type of `e` is in `primaryReleaseEvents` and not in
`secondaryReleaseEvents`, `onGrabEnd` negates `toggle`, so that a second such
release `e2` restores the original value; when the type is in
`secondaryReleaseEvents`, `toggle` is `true` afterwards; when the type is in
neither list, in particular when there is no button event, `toggle` is
unchanged; propagation is stopped exactly when the type is a secondary
release, or a primary release with `toggle` false, and then `toggle` is `true`
afterwards; the release lists are never changed. -/
theorem C21_onGrabEnd_toggles (c : Component) (e e2 : GrabEvent) :
    (isPrimaryRelease c (eventType e) = true → isSecondaryRelease c (eventType e) = false →
        (onGrabEnd c e).component.toggle = !c.toggle ∧
          (isPrimaryRelease c (eventType e2) = true →
            isSecondaryRelease c (eventType e2) = false →
            (onGrabEnd (onGrabEnd c e).component e2).component.toggle = c.toggle)) ∧
      (isSecondaryRelease c (eventType e) = true → (onGrabEnd c e).component.toggle = true) ∧
      (isPrimaryRelease c (eventType e) = false → isSecondaryRelease c (eventType e) = false →
        onGrabEnd c e = { component := c, propagationStopped := false }) ∧
      (eventType e = none → onGrabEnd c e = { component := c, propagationStopped := false }) ∧
      ((onGrabEnd c e).propagationStopped = true ↔
        (isSecondaryRelease c (eventType e) = true ∨
          (isPrimaryRelease c (eventType e) = true ∧ c.toggle = false))) ∧
      ((onGrabEnd c e).propagationStopped = true → (onGrabEnd c e).component.toggle = true) ∧
      (onGrabEnd c e).component.primaryReleaseEvents = c.primaryReleaseEvents ∧
      (onGrabEnd c e).component.secondaryReleaseEvents = c.secondaryReleaseEvents := by
  have hnone : ∀ d : Component, isPrimaryRelease d none = false ∧
      isSecondaryRelease d none = false := fun _ => ⟨rfl, rfl⟩
  refine ⟨?_, ?_, ?_, ?_, ?_, ?_, ?_, ?_⟩
  · intro hp hs
    have h1 : (onGrabEnd c e).component.toggle = !c.toggle := by
      unfold onGrabEnd
      cases ht : c.toggle <;> simp [hp, hs, ht]
    refine ⟨h1, ?_⟩
    intro hp2 hs2
    have hl : (onGrabEnd c e).component.primaryReleaseEvents = c.primaryReleaseEvents ∧
        (onGrabEnd c e).component.secondaryReleaseEvents = c.secondaryReleaseEvents := by
      unfold onGrabEnd
      cases ht : c.toggle <;> simp [hp, hs, ht]
    have hp2' : isPrimaryRelease (onGrabEnd c e).component (eventType e2) = true := by
      unfold isPrimaryRelease at hp2 ⊢
      rw [hl.1]
      exact hp2
    have hs2' : isSecondaryRelease (onGrabEnd c e).component (eventType e2) = false := by
      unfold isSecondaryRelease at hs2 ⊢
      rw [hl.2]
      exact hs2
    generalize onGrabEnd c e = o at h1 hp2' hs2'
    unfold onGrabEnd
    cases ht : c.toggle <;> simp [hp2', hs2', h1, ht]
  · intro hs
    unfold onGrabEnd
    simp [hs]
  · intro hp hs
    unfold onGrabEnd
    simp [hp, hs]
  · intro hn
    unfold onGrabEnd
    simp [hn, (hnone c).1, (hnone c).2]
  · unfold onGrabEnd
    cases hp : isPrimaryRelease c (eventType e) <;>
      cases hs : isSecondaryRelease c (eventType e) <;> cases ht : c.toggle <;>
      simp [hp, hs, ht]
  · unfold onGrabEnd
    cases hp : isPrimaryRelease c (eventType e) <;>
      cases hs : isSecondaryRelease c (eventType e) <;> cases ht : c.toggle <;>
      simp [hp, hs, ht]
  · unfold onGrabEnd
    simp only []
    split
    · rfl
    · split <;> rfl
  · unfold onGrabEnd
    simp only []
    split
    · rfl
    · split <;> rfl

/-- C21 (witness): with the default lists, from `toggle = false` a
`hand_release` sets `toggle` and stops propagation, a second one clears it; a
`secondary_hand_release` sets it; an event without detail changes nothing. -/
theorem C21_onGrabEnd_toggles_witness :
    isPrimaryRelease defaultComponent (eventType (buttonRelease "hand_release")) = true ∧
      isSecondaryRelease defaultComponent (eventType (buttonRelease "hand_release")) = false ∧
      (onGrabEnd defaultComponent (buttonRelease "hand_release")).component.toggle = true ∧
      (onGrabEnd defaultComponent (buttonRelease "hand_release")).propagationStopped = true ∧
      (onGrabEnd (onGrabEnd defaultComponent (buttonRelease "hand_release")).component
        (buttonRelease "action_release")).component.toggle = false ∧
      (onGrabEnd defaultComponent (buttonRelease "secondary_hand_release")).component.toggle
        = true ∧
      onGrabEnd defaultComponent { detail := none } =
        { component := defaultComponent, propagationStopped := false } := by
  have hp : isPrimaryRelease defaultComponent (eventType (buttonRelease "hand_release"))
      = true := by decide
  have hs : isSecondaryRelease defaultComponent (eventType (buttonRelease "hand_release"))
      = false := by decide
  have hp2 : isPrimaryRelease defaultComponent (eventType (buttonRelease "action_release"))
      = true := by decide
  have hs2 : isSecondaryRelease defaultComponent (eventType (buttonRelease "action_release"))
      = false := by decide
  have h := C21_onGrabEnd_toggles defaultComponent (buttonRelease "hand_release")
    (buttonRelease "action_release")
  have h3 := C21_onGrabEnd_toggles defaultComponent (buttonRelease "secondary_hand_release")
    (buttonRelease "action_release")
  have h4 := C21_onGrabEnd_toggles defaultComponent { detail := none }
    (buttonRelease "action_release")
  exact ⟨hp, hs, (h.1 hp hs).1, h.2.2.2.2.1.mpr (Or.inr ⟨hp, rfl⟩), (h.1 hp hs).2 hp2 hs2,
    h3.2.1 (by decide), h4.2.2.2.1 rfl⟩

end GrabbableToggle
